import Mathlib

/-!
# 35mm-Paris: verification of the deterministic-identity reconciliation pipeline

Shallow embedding of the Python source under `backend/` (insert_logic.py,
bulk_operations.py, import_paris.py, validate_data.py).  Python strings are
modelled as lists of Unicode code points (`PyStr`); machine integers are `Nat`
with explicit `% 2^32` where the 32-bit SHA-256 schedule requires it; fallible
paths return `Option`/`Except`; the relational sink is an explicit record of
tables threaded through every operation.
-/

namespace MM

/-- A Python string, as its list of Unicode code points. -/
abbrev PyStr := List Nat

/-- Code points of a Lean string literal (used to write concrete inputs). -/
def pyStr (s : String) : PyStr := s.data.map Char.toNat

/-- Python `str.isspace` on one code point, restricted to the ASCII whitespace
class that `str.strip()` removes (space, tab, LF, VT, FF, CR). -/
def isSpaceCp (c : Nat) : Bool := c = 32 || c = 9 || c = 10 || c = 11 || c = 12 || c = 13

/-- Python `str.strip()`: drop leading and trailing whitespace. -/
def pyStrip (s : PyStr) : PyStr :=
  ((s.dropWhile isSpaceCp).reverse.dropWhile isSpaceCp).reverse

/-- Python `str.lower()` on one code point (ASCII letters; other code points
pass through unchanged). -/
def lowerCp (c : Nat) : Nat := if 65 ≤ c ∧ c ≤ 90 then c + 32 else c

/-- Python `str.lower()`. -/
def pyLower (s : PyStr) : PyStr := s.map lowerCp

/-- `strip` then `lower`, the normalization both `generate_movie_id` and
`generate_director_id` apply to each field. -/
def normStr (s : PyStr) : PyStr := pyLower (pyStrip s)

/-- ASCII decimal digit test (`str.isdigit` on the ASCII range). -/
def isDigitCp (c : Nat) : Bool := 48 ≤ c ∧ c ≤ 57

/-- Python `str.isdigit()`: non-empty and all digits. -/
def pyIsDigit (s : PyStr) : Bool := !s.isEmpty && s.all isDigitCp

/-- Python `int(s)` on a digit string. -/
def pyStrToNat (s : PyStr) : Nat := s.foldl (fun a c => a * 10 + (c - 48)) 0

/-- Python `str(n)` for a non-negative integer, as code points (structural on
a fuel bound: `n + 1` always covers the digit count). -/
def natCpGo (fuel : Nat) (n : Nat) : PyStr :=
  match fuel with
  | 0 => []
  | fuel + 1 => if n < 10 then [48 + n] else natCpGo fuel (n / 10) ++ [48 + n % 10]

def natCp (n : Nat) : PyStr := natCpGo (n + 1) n

/-- UTF-8 encoding of one code point. -/
def utf8Cp (c : Nat) : List Nat :=
  if c < 0x80 then [c]
  else if c < 0x800 then [0xC0 ||| (c >>> 6), 0x80 ||| (c &&& 0x3F)]
  else if c < 0x10000 then
    [0xE0 ||| (c >>> 12), 0x80 ||| ((c >>> 6) &&& 0x3F), 0x80 ||| (c &&& 0x3F)]
  else
    [0xF0 ||| (c >>> 18), 0x80 ||| ((c >>> 12) &&& 0x3F),
     0x80 ||| ((c >>> 6) &&& 0x3F), 0x80 ||| (c &&& 0x3F)]

/-- Python `s.encode()` (UTF-8 bytes). -/
def utf8Encode (s : PyStr) : List Nat := (s.map utf8Cp).flatten

/-! ## SHA-256 (hashlib.sha256), over bytes as `Nat` with explicit mod 2^32 -/

/-- Truncate to a 32-bit word. -/
def w32 (n : Nat) : Nat := n % 4294967296

/-- 32-bit right rotation (argument assumed < 2^32). -/
def rotr (x n : Nat) : Nat := (x >>> n) ||| w32 (x <<< (32 - n))

def ch (x y z : Nat) : Nat := (x &&& y) ^^^ ((x ^^^ 4294967295) &&& z)
def maj (x y z : Nat) : Nat := (x &&& y) ^^^ (x &&& z) ^^^ (y &&& z)
def bigSigma0 (x : Nat) : Nat := rotr x 2 ^^^ rotr x 13 ^^^ rotr x 22
def bigSigma1 (x : Nat) : Nat := rotr x 6 ^^^ rotr x 11 ^^^ rotr x 25
def smallSigma0 (x : Nat) : Nat := rotr x 7 ^^^ rotr x 18 ^^^ (x >>> 3)
def smallSigma1 (x : Nat) : Nat := rotr x 17 ^^^ rotr x 19 ^^^ (x >>> 10)

/-- The 64 SHA-256 round constants. -/
def K256 : List Nat :=
  [1116352408, 1899447441, 3049323471, 3921009573, 961987163, 1508970993,
   2453635748, 2870763221, 3624381080, 310598401, 607225278, 1426881987,
   1925078388, 2162078206, 2614888103, 3248222580, 3835390401, 4022224774,
   264347078, 604807628, 770255983, 1249150122, 1555081692, 1996064986,
   2554220882, 2821834349, 2952996808, 3210313671, 3336571891, 3584528711,
   113926993, 338241895, 666307205, 773529912, 1294757372, 1396182291,
   1695183700, 1986661051, 2177026350, 2456956037, 2730485921, 2820302411,
   3259730800, 3345764771, 3516065817, 3600352804, 4094571909, 275423344,
   430227734, 506948616, 659060556, 883997877, 958139571, 1322822218,
   1537002063, 1747873779, 1955562222, 2024104815, 2227730452, 2361852424,
   2428436474, 2756734187, 3204031479, 3329325298]

/-- SHA-256 initial hash value. -/
def H256 : List Nat :=
  [1779033703, 3144134277, 1013904242, 2773480762, 1359893119, 2600822924, 528734635, 1541459225]

/-- Group bytes into big-endian 32-bit words. -/
def toWords : List Nat → List Nat
  | b0 :: b1 :: b2 :: b3 :: rest => (((b0 * 256 + b1) * 256 + b2) * 256 + b3) :: toWords rest
  | _ => []

/-- Big-endian bytes of a 32-bit word. -/
def be32 (w : Nat) : List Nat := [(w >>> 24) &&& 255, (w >>> 16) &&& 255, (w >>> 8) &&& 255, w &&& 255]

/-- Big-endian 8-byte encoding of the message bit length. -/
def be64 (n : Nat) : List Nat :=
  [(n >>> 56) &&& 255, (n >>> 48) &&& 255, (n >>> 40) &&& 255, (n >>> 32) &&& 255,
   (n >>> 24) &&& 255, (n >>> 16) &&& 255, (n >>> 8) &&& 255, n &&& 255]

/-- SHA-256 message padding: `0x80`, zeros to 56 mod 64, 64-bit bit length. -/
def sha256Pad (msg : List Nat) : List Nat :=
  let L := msg.length
  msg ++ [0x80] ++ List.replicate ((119 - L % 64) % 64) 0 ++ be64 (8 * L)

/-- Extend the 16 block words by `n` more schedule words (`ws` is reversed:
head is the most recent word). -/
def extendWords (ws : List Nat) : Nat → List Nat
  | 0 => ws
  | n + 1 =>
    let g (k : Nat) : Nat := ws.getD k 0
    extendWords (w32 (smallSigma1 (g 1) + g 6 + smallSigma0 (g 14) + g 15) :: ws) n

/-- One round of the SHA-256 compression function. -/
def round256 (st : List Nat) (wk : Nat × Nat) : List Nat :=
  match st with
  | [a, b, c, d, e, f, g, h] =>
    let t1 := w32 (h + bigSigma1 e + ch e f g + wk.1 + wk.2)
    let t2 := w32 (bigSigma0 a + maj a b c)
    [w32 (t1 + t2), a, b, c, w32 (d + t1), e, f, g]
  | st => st

/-- Compress one 64-byte block into the running hash state. -/
def compressBlock (H : List Nat) (block : List Nat) : List Nat :=
  let W := (extendWords (toWords block).reverse 48).reverse
  let st := (W.zip K256).foldl round256 H
  (H.zip st).map fun p => w32 (p.1 + p.2)

/-- Fold the compression function over `n` consecutive 64-byte blocks. -/
def sha256Blocks (H : List Nat) (bs : List Nat) : Nat → List Nat
  | 0 => H
  | n + 1 => sha256Blocks (compressBlock H (bs.take 64)) (bs.drop 64) n

/-- `hashlib.sha256(msg).digest()`: 32 digest bytes of a byte string. -/
def sha256 (msg : List Nat) : List Nat :=
  let p := sha256Pad msg
  ((sha256Blocks H256 p (p.length / 64)).map be32).flatten

/-- Python `int.from_bytes(digest[:4], 'big')`.  `int(hexdigest()[:8], 16)` in
`cinema_id_to_int` denotes the same number (8 hex digits = first 4 bytes). -/
def bytesBe4 (bs : List Nat) : Nat := (bs.take 4).foldl (fun a b => a * 256 + b) 0

/-! ## Identity generators (insert_logic.py lines 46-76, 279-284) -/

/-- `generate_movie_id`: normalize, concatenate with `_` (appending the runtime
only when it is positive), SHA-256, first 4 bytes mod 10^8. -/
def generate_movie_id (title original_title : PyStr) (runtime : Nat) : Nat :=
  let t := normStr title
  let o := normStr (if original_title.isEmpty then t else original_title)
  let hash_str := t ++ [95] ++ o ++ (if runtime > 0 then [95] ++ natCp runtime else [])
  bytesBe4 (sha256 (utf8Encode hash_str)) % 100000000

/-- `generate_director_id`: `f"{first.strip().lower()}_{last.strip().lower()}"`,
SHA-256, first 4 bytes mod 10^8. -/
def generate_director_id (first_name last_name : PyStr) : Nat :=
  bytesBe4 (sha256 (utf8Encode (normStr first_name ++ [95] ++ normStr last_name))) % 100000000

/-- `cinema_id_to_int`: a purely numeric identifier parses directly; otherwise
the first 8 hex digits of its SHA-256 are read as an integer. -/
def cinema_id_to_int (cinema_id : PyStr) : Nat :=
  if pyIsDigit cinema_id then pyStrToNat cinema_id
  else bytesBe4 (sha256 (utf8Encode cinema_id))

/-! ## Record normalizer (insert_logic.py lines 17-43, 140-158, 192-214) -/

/-- Does `pre` start the list `s`? -/
def startsList : PyStr → PyStr → Bool
  | [], _ => true
  | _ :: _, [] => false
  | a :: as, b :: bs => a = b && startsList as bs

/-- Leftmost `re.search` of the pattern `(\d+)<suffix>` (with `suffix` free of
digits): the first maximal digit run immediately followed by `suffix`.
Structural on a fuel bound; `s.length` fuel always suffices since every step
consumes at least one character. -/
def reNumGo (suffix : PyStr) : Nat → PyStr → Option Nat
  | _, [] => none
  | 0, _ :: _ => none
  | fuel + 1, c :: rest =>
    if isDigitCp c then
      let run := c :: rest.takeWhile isDigitCp
      let after := rest.dropWhile isDigitCp
      if startsList suffix after then some (pyStrToNat run)
      else reNumGo suffix fuel after
    else reNumGo suffix fuel rest

def reNumBefore (suffix : PyStr) (s : PyStr) : Option Nat := reNumGo suffix s.length s

/-- `parse_runtime`: hours from `(\d+)h`, minutes from `(\d+)min`, each
defaulting to 0; `None` and the empty string give 0.  (The `isinstance(int)`
pass-through branch is for already-integer inputs, which the record shapes
modelled here never produce: the feed and the pydantic `MovieData.runtime`
field carry strings or `None`.) -/
def parse_runtime : Option PyStr → Nat
  | none => 0
  | some s =>
    if s.isEmpty then 0
    else (reNumBefore (pyStr "h") s).getD 0 * 60 + (reNumBefore (pyStr "min") s).getD 0

/-- Python `str.split(sep)` for a one-character separator. -/
def splitOnCp (sep : Nat) : PyStr → List PyStr
  | [] => [[]]
  | c :: rest =>
    match splitOnCp sep rest with
    | h :: t => if c = sep then [] :: h :: t else (c :: h) :: t
    | [] => [[]]

/-- Python `str.split(sep, 1)`: the part before the first separator, and the
part after it when the separator occurs. -/
def splitFirstCp (sep : Nat) : PyStr → PyStr × Option PyStr
  | [] => ([], none)
  | c :: rest =>
    if c = sep then ([], some rest)
    else
      let (a, b) := splitFirstCp sep rest
      (c :: a, b)

/-- A parsed `Director` (pydantic model: both names stripped, non-empty). -/
structure Director where
  first_name : PyStr
  last_name : PyStr
deriving DecidableEq, Repr

/-- `Director(first_name=.., last_name=..)`: validators strip both names and
raise on empty ones (the caller catches and drops the entry). -/
def mkDirector (first last : PyStr) : Option Director :=
  if (pyStrip first).isEmpty || (pyStrip last).isEmpty then none
  else some ⟨pyStrip first, pyStrip last⟩

/-- One `full_name` entry of the director loop: strip, drop entries that are
empty or lack an interior space, split on the first space. -/
def parseDirectorEntry (nm : PyStr) : Option Director :=
  let full := pyStrip nm
  if full.isEmpty then none
  else if !full.contains 32 then none
  else
    let (p0, p1) := splitFirstCp 32 full
    mkDirector p0 (p1.getD [])

/-- `_parse_directors`: split the raw field on `|`; the sentinel
`"Unknown Director"` and falsy input give `[]`. -/
def parse_directors : Option PyStr → List Director
  | none => []
  | some s =>
    if s.isEmpty || s = pyStr "Unknown Director" then []
    else (splitOnCp 124 s).filterMap parseDirectorEntry

/-- One raw language entry: a dict with optional `code`/`label` keys, a bare
string, or anything else (dropped). -/
inductive LangEntry
  | dictE (code : Option PyStr) (label : Option PyStr)
  | strE (s : PyStr)
  | otherE
deriving DecidableEq, Repr

/-- A validated `Language` (label defaults to the code when falsy). -/
structure Language where
  code : PyStr
  label : PyStr
deriving DecidableEq, Repr

/-- One iteration of `_parse_languages`: build a `Language`, keep it only when
its code is non-empty. -/
def parseLangEntry : LangEntry → Option Language
  | .dictE code label =>
    let c := code.getD []
    if c.isEmpty then none
    else some ⟨c, match label with
                  | some l => if l.isEmpty then c else l
                  | none => c⟩
  | .strE s => if s.isEmpty then none else some ⟨s, s⟩
  | .otherE => none

/-- `_parse_languages`. -/
def parse_languages : Option (List LangEntry) → List Language
  | none => []
  | some l => l.filterMap parseLangEntry

/-! ## Raw records and validated models (models.py) -/

/-- A raw release sub-record from the feed (only its `releaseDate` key is ever
read on this path). -/
structure ReleaseRec where
  releaseDate : Option PyStr
deriving DecidableEq, Repr

/-- A raw movie record (dict) from the feed.  `none` models a missing key (or
a `None` value — both are falsy wherever these fields are read). -/
structure MovieRecord where
  title : Option PyStr
  originalTitle : Option PyStr
  synopsisFull : Option PyStr
  urlPoster : Option PyStr
  runtime : Option PyStr
  director : Option PyStr
  languages : Option (List LangEntry)
  hasDvdRelease : Bool
  isPremiere : Bool
  weeklyOuting : Bool
  releases : List ReleaseRec
deriving DecidableEq, Repr

/-- The validated pydantic `MovieData`. -/
structure MovieData where
  title : PyStr
  originalTitle : PyStr
  synopsis : Option PyStr
  poster_url : Option PyStr
  runtime : Option PyStr
  director : Option PyStr
  languages : Option (List LangEntry)
  has_dvd_release : Bool
  is_premiere : Bool
  weekly_outing : Bool
deriving DecidableEq, Repr

/-- `MovieData(**movie_data)`: `title` must be present and non-empty after
stripping (and is stored stripped); a falsy `originalTitle` defaults to the
validated title; everything else passes through. -/
def validateMovieData (r : MovieRecord) : Option MovieData :=
  match r.title with
  | none => none
  | some t =>
    if (pyStrip t).isEmpty then none
    else some
      { title := pyStrip t
        originalTitle :=
          match r.originalTitle with
          | some o => if o.isEmpty then pyStrip t else o
          | none => pyStrip t
        synopsis := r.synopsisFull
        poster_url := r.urlPoster
        runtime := r.runtime
        director := r.director
        languages := r.languages
        has_dvd_release := r.hasDvdRelease
        is_premiere := r.isPremiere
        weekly_outing := r.weeklyOuting }

/-! ## The relational sink: table rows and the database state -/

structure MovieRow where
  id : Nat
  title : PyStr
  original_title : PyStr
  synopsis : Option PyStr
  poster_url : Option PyStr
  runtime : Nat
  has_dvd_release : Bool
  is_premiere : Bool
  weekly_outing : Bool
deriving DecidableEq, Repr, Inhabited

structure DirectorRow where
  id : Nat
  first_name : PyStr
  last_name : PyStr
deriving DecidableEq, Repr

structure LanguageRow where
  code : PyStr
  label : PyStr
deriving DecidableEq, Repr

structure MovieDirectorRow where
  movie_id : Nat
  director_id : Nat
deriving DecidableEq, Repr

structure MovieLanguageRow where
  movie_id : Nat
  code : PyStr
deriving DecidableEq, Repr

structure ScreeningRow where
  movie_id : Nat
  cinema_id : Nat
  date : PyStr
  starts_at : Option PyStr
  diffusion_version : Option PyStr
deriving DecidableEq, Repr

structure ReleaseRow where
  movie_id : Nat
  release_name : PyStr
  release_date : PyStr
deriving DecidableEq, Repr

/-- The sink state: one list of rows per table touched by this pipeline. -/
structure DB where
  movies : List MovieRow
  directors : List DirectorRow
  languages : List LanguageRow
  movie_directors : List MovieDirectorRow
  movie_languages : List MovieLanguageRow
  screenings : List ScreeningRow
  releases : List ReleaseRow
deriving DecidableEq, Repr

def emptyDB : DB := ⟨[], [], [], [], [], [], []⟩

/-- Sink `upsert` with conflict key `key`: replace the matching row in place,
otherwise append. -/
def upsertRow {α β : Type} [DecidableEq β] (key : α → β) (row : α) (table : List α) : List α :=
  if table.any fun r => key r = key row then
    table.map fun r => if key r = key row then row else r
  else table ++ [row]

/-! ## Single-record insertion logic (insert_logic.py lines 79-243) -/

/-- `movie_exists`: select by primary key. -/
def movie_exists (movie_id : Nat) (db : DB) : Bool :=
  db.movies.any fun m => m.id = movie_id

/-- The loop body of `_insert_directors`: upsert the director (conflict key
`id`), then the link row (conflict key `(movie_id, director_id)`). -/
def insertDirectorsLoop (movie_id : Nat) : List Director → DB → DB
  | [], db => db
  | d :: ds, db =>
    let director_id := generate_director_id d.first_name d.last_name
    let db := { db with
      directors := upsertRow DirectorRow.id ⟨director_id, d.first_name, d.last_name⟩ db.directors }
    let db := { db with
      movie_directors := upsertRow (fun r => (r.movie_id, r.director_id))
        ⟨movie_id, director_id⟩ db.movie_directors }
    insertDirectorsLoop movie_id ds db

def insert_directors (m : MovieData) (movie_id : Nat) (db : DB) : DB :=
  insertDirectorsLoop movie_id (parse_directors m.director) db

/-- The loop body of `_insert_languages`: upsert the language (conflict key
`code`), then the link row (conflict key `(movie_id, code)`). -/
def insertLanguagesLoop (movie_id : Nat) : List Language → DB → DB
  | [], db => db
  | l :: ls, db =>
    let db := { db with languages := upsertRow LanguageRow.code ⟨l.code, l.label⟩ db.languages }
    let db := { db with
      movie_languages := upsertRow (fun r => (r.movie_id, r.code))
        ⟨movie_id, l.code⟩ db.movie_languages }
    insertLanguagesLoop movie_id ls db

def insert_languages (m : MovieData) (movie_id : Nat) (db : DB) : DB :=
  insertLanguagesLoop movie_id (parse_languages m.languages) db

/-- `insert_movie`: validate, derive the id, skip when a row with that id
already exists, otherwise insert the movie row and its director/language
sub-records.  Returns the id when (and only when) the movie row was written. -/
def insert_movie (r : MovieRecord) (db : DB) : Option Nat × DB :=
  match validateMovieData r with
  | none => (none, db)
  | some m =>
    let runtime := parse_runtime m.runtime
    let ot := if m.originalTitle.isEmpty then m.title else m.originalTitle
    let movie_id := generate_movie_id m.title ot runtime
    if movie_exists movie_id db then (none, db)
    else
      let row : MovieRow :=
        { id := movie_id, title := m.title, original_title := ot,
          synopsis := m.synopsis, poster_url := m.poster_url, runtime := runtime,
          has_dvd_release := m.has_dvd_release, is_premiere := m.is_premiere,
          weekly_outing := m.weekly_outing }
      let db := { db with movies := db.movies ++ [row] }
      let db := insert_directors m movie_id db
      let db := insert_languages m movie_id db
      (some movie_id, db)

/-- Python truthiness of an `Optional[int]`: `None` and `0` are falsy. -/
def optTruthy : Option Nat → Bool
  | none => false
  | some n => !(n = 0 : Bool)

/-- `bulk_insert_movies` (insert_logic.py lines 245-276): records with a falsy
title are skipped; otherwise a record counts as inserted exactly when
`insert_movie` returned a truthy id. -/
def bulk_insert_movies : List MovieRecord → Nat → Nat → DB → (Nat × Nat) × DB
  | [], inserted, skipped, db => ((inserted, skipped), db)
  | r :: rs, inserted, skipped, db =>
    if (r.title.getD []).isEmpty then bulk_insert_movies rs inserted (skipped + 1) db
    else
      let (movie_id, db) := insert_movie r db
      if optTruthy movie_id then bulk_insert_movies rs (inserted + 1) skipped db
      else bulk_insert_movies rs inserted (skipped + 1) db

/-- `insert_release` (insert_logic.py lines 408-443): plain insert (no
conflict key, no existence check) of a release row; a falsy release date
returns `False` without writing. -/
def insert_release (movie_id : Nat) (rel : ReleaseRec) (db : DB) : Bool × DB :=
  match rel.releaseDate with
  | none => (false, db)
  | some d =>
    if d.isEmpty then (false, db)
    else (true, { db with releases :=
      db.releases ++ [⟨movie_id, pyStr "Sortie française", d⟩] })

/-! ## insert_screening (insert_logic.py lines 336-405) -/

structure ScreeningData where
  date : Option PyStr
  time : Option PyStr
  starts_at : Option PyStr
  version : Option PyStr
  diffusion_version : Option PyStr
deriving DecidableEq, Repr

/-- The datetime munging: when the time contains a `T`, keep the segment after
the first `T`, cut at `+`, and delete every `Z`. -/
def extractTime (t : PyStr) : PyStr :=
  if t.contains 84 then
    let t1 := (splitOnCp 84 t).getD 1 []
    let t2 := if t1.contains 43 then (splitOnCp 43 t1).getD 0 [] else t1
    if t2.contains 90 then t2.filter (fun c => !(c = 90 : Bool)) else t2
  else t

/-- `screening_data.get("time", screening_data.get("starts_at"))`, then the
datetime munging (skipped for falsy values, on which it is the identity). -/
def screeningTime (sd : ScreeningData) : Option PyStr :=
  (match sd.time with
   | some t => some t
   | none => sd.starts_at).map extractTime

/-- `.get("version", .get("diffusion_version"))`. -/
def screeningVersion (sd : ScreeningData) : Option PyStr :=
  match sd.version with
  | some v => some v
  | none => sd.diffusion_version

/-- The existence filter: `.eq` on all four components of the composite key. -/
def screeningMatches (movie_id cinema_id_int : Nat) (d : PyStr) (t : Option PyStr)
    (r : ScreeningRow) : Bool :=
  r.movie_id = movie_id && r.cinema_id = cinema_id_int && r.date = d && r.starts_at = t

/-- `insert_screening`: check the composite key `(movie_id, cinema_id, date,
starts_at)` first, insert only when absent; `True` in both cases.  `False`
requires a falsy date (or, in the source, a raised sink error — sink calls in
this model are total). -/
def insert_screening (sd : ScreeningData) (movie_id : Nat) (cinema_id : PyStr)
    (db : DB) : Bool × DB :=
  let cinema_id_int := cinema_id_to_int cinema_id
  match sd.date with
  | none => (false, db)
  | some d =>
    if d.isEmpty then (false, db)
    else
      let time_str := screeningTime sd
      if db.screenings.any (screeningMatches movie_id cinema_id_int d time_str) then (true, db)
      else (true, { db with screenings :=
        db.screenings ++ [⟨movie_id, cinema_id_int, d, time_str, screeningVersion sd⟩] })

/-! ## process_cinema_screenings (insert_logic.py lines 446-529) -/

structure ShowtimeRec where
  startsAt : Option PyStr
  diffusionVersion : Option PyStr
deriving DecidableEq, Repr

/-- One entry of `get_showtime`: a title plus its showtimes. -/
structure ShowtimeEntry where
  title : PyStr
  showtimes : List ShowtimeRec
deriving DecidableEq, Repr

/-- Python `dict` assignment `d[k] = v`: update in place or append. -/
def dictUpd {κ β : Type} [DecidableEq κ] (k : κ) (v : β) (d : List (κ × β)) : List (κ × β) :=
  if d.any fun p => p.1 = k then d.map fun p => if p.1 = k then (k, v) else p
  else d ++ [(k, v)]

/-- Python `dict.get(k)`. -/
def dictGet {κ β : Type} [DecidableEq κ] (k : κ) (d : List (κ × β)) : Option β :=
  (d.find? fun p => p.1 = k).map Prod.snd

/-- The fallback id computed when `insert_movie` returns a falsy result:
`generate_movie_id(movie_data.get("title",""),
movie_data.get("originalTitle", title), parse_runtime(movie_data.get("runtime",
"0min")))`. -/
def fallbackId (r : MovieRecord) : Nat :=
  let title := r.title.getD []
  generate_movie_id title (r.originalTitle.getD title)
    (parse_runtime (some (r.runtime.getD (pyStr "0min"))))

/-- The `movie_title_to_id` mapping the movie loop builds, computed from the
records alone: every record contributes its fallback id (which coincides with
the id `insert_movie` would return), and a record without a title aborts. -/
def mappingOfRecords : List MovieRecord → List (PyStr × Nat) → Option (List (PyStr × Nat))
  | [], mp => some mp
  | r :: rs, mp =>
    match r.title with
    | none => none
    | some t => mappingOfRecords rs (dictUpd t (fallbackId r) mp)

/-- The per-movie release loop: `insert_release` for each release whose
`releaseDate` is truthy. -/
def insertReleasesLoop (movie_id : Nat) : List ReleaseRec → DB → DB
  | [], db => db
  | rel :: rels, db =>
    let db := if !(rel.releaseDate.getD []).isEmpty then (insert_release movie_id rel db).2 else db
    insertReleasesLoop movie_id rels db

/-- The movie loop of `process_cinema_screenings`: insert (or resolve) each
movie, record its id in `movie_title_to_id`, insert its releases.  A record
without a `"title"` key raises `KeyError` at `movie_data["title"]`; the
exception aborts the whole `try` block (`none`), keeping the sink writes
issued up to that point. -/
def processMoviesLoop : List MovieRecord → Nat → List (PyStr × Nat) → DB →
    Option (Nat × List (PyStr × Nat)) × DB
  | [], cnt, mapping, db => (some (cnt, mapping), db)
  | r :: rs, cnt, mapping, db =>
    let (res, db) := insert_movie r db
    let (movie_id, cnt) :=
      if optTruthy res then (res.getD 0, cnt + 1) else (fallbackId r, cnt)
    match r.title with
    | none => (none, db)
    | some t =>
      let mapping := dictUpd t movie_id mapping
      let db := insertReleasesLoop movie_id r.releases db
      processMoviesLoop rs cnt mapping db

/-- The `screening_data` dict built for one showtime: the unit's date, the
feed's `startsAt` under the `"time"` key and `diffusionVersion` under
`"version"`. -/
def sdOf (date : PyStr) (st : ShowtimeRec) : ScreeningData :=
  { date := some date, time := st.startsAt, starts_at := none,
    version := st.diffusionVersion, diffusion_version := none }

/-- The inner showtime loop: one `insert_screening` per showtime, counting
every `True` result. -/
def processShowtimeList (movie_id : Nat) (date cinema_id : PyStr) :
    List ShowtimeRec → Nat → DB → Nat × DB
  | [], cnt, db => (cnt, db)
  | st :: sts, cnt, db =>
    let (ok, db) := insert_screening (sdOf date st) movie_id cinema_id db
    processShowtimeList movie_id date cinema_id sts (if ok then cnt + 1 else cnt) db

/-- The outer showtime loop: entries whose title resolves to a falsy movie id
are dropped with a warning. -/
def processShowtimesLoop (mapping : List (PyStr × Nat)) (date cinema_id : PyStr) :
    List ShowtimeEntry → Nat → DB → Nat × DB
  | [], cnt, db => (cnt, db)
  | e :: es, cnt, db =>
    let mid := dictGet e.title mapping
    if optTruthy mid then
      let (cnt, db) := processShowtimeList (mid.getD 0) date cinema_id e.showtimes cnt db
      processShowtimesLoop mapping date cinema_id es cnt db
    else processShowtimesLoop mapping date cinema_id es cnt db

/-- `process_cinema_screenings`.  The feeds are given as `Except` values: an
`error` models `api.get_movies` / `api.get_showtime` raising.  Every exception
inside the `try` block — feed errors included — is caught by the function's own
`except` handler, which returns `(0, 0)` while keeping the sink writes already
issued; the function itself never raises. -/
def process_cinema_screenings (feedMovies : Except PyStr (List MovieRecord))
    (feedShowtimes : Except PyStr (List ShowtimeEntry))
    (cinema_id date : PyStr) (db : DB) : (Nat × Nat) × DB :=
  match feedMovies with
  | .error _ => ((0, 0), db)
  | .ok movies_data =>
    match processMoviesLoop movies_data 0 [] db with
    | (none, db) => ((0, 0), db)
    | (some (movies_inserted, mapping), db) =>
      match feedShowtimes with
      | .error _ => ((0, 0), db)
      | .ok showtimes_data =>
        let (screenings_inserted, db) :=
          processShowtimesLoop mapping date cinema_id showtimes_data 0 db
        ((movies_inserted, screenings_inserted), db)

/-! ## import_paris.py: retry wrapper and per-unit accounting -/

def MAX_RETRIES : Nat := 3

/-- The `for attempt in range(max_retries)` loop of
`import_screenings_with_retry`: run the body, return its value when it does
not raise; on an exception, retry (after a backoff sleep) unless this was the
last attempt, in which case return `(0, 0)`.  Falling out of the loop
(no attempts left) returns Python's implicit `None`, modelled as `none`.
`remaining` counts the attempts still available (`max_retries - attempt`). -/
def retryGo (body : Nat → DB → Except PyStr ((Nat × Nat) × DB)) (max_retries : Nat) :
    Nat → Nat → DB → Option ((Nat × Nat) × DB)
  | 0, _, _ => none
  | remaining + 1, attempt, db =>
    match body attempt db with
    | .ok res => some res
    | .error _ =>
      if attempt < max_retries - 1 then retryGo body max_retries remaining (attempt + 1) db
      else some ((0, 0), db)

def retryLoop (body : Nat → DB → Except PyStr ((Nat × Nat) × DB))
    (max_retries attempt : Nat) (db : DB) : Option ((Nat × Nat) × DB) :=
  retryGo body max_retries (max_retries - attempt) attempt db

/-- `import_screenings_with_retry`: the loop body calls
`process_cinema_screenings`, which handles - and hence never propagates - its
own exceptions, so the body always returns `Except.ok` and the wrapper's
retry branch is dead code: the first attempt's result is always returned. -/
def import_screenings_with_retry
    (feedM : Nat → Except PyStr (List MovieRecord))
    (feedS : Nat → Except PyStr (List ShowtimeEntry))
    (cinema_id date : PyStr) (max_retries : Nat) (db : DB) : Option ((Nat × Nat) × DB) :=
  retryLoop
    (fun attempt db =>
      Except.ok (process_cinema_screenings (feedM attempt) (feedS attempt) cinema_id date db))
    max_retries 0 db

/-- The import loop of `main`: accumulate totals and append a unit to
`failed_imports` exactly when its result is `(0, 0)`.  (`import_screenings_with_retry`
with `MAX_RETRIES = 3` always returns a value; `getD` supplies the unreachable
default.) -/
def mainImportLoop
    (feedM : PyStr → PyStr → Nat → Except PyStr (List MovieRecord))
    (feedS : PyStr → PyStr → Nat → Except PyStr (List ShowtimeEntry)) :
    List (PyStr × PyStr) → Nat → Nat → List (PyStr × PyStr) → DB →
    (Nat × Nat × List (PyStr × PyStr)) × DB
  | [], tm, ts, failed, db => ((tm, ts, failed), db)
  | u :: us, tm, ts, failed, db =>
    let ((m, s), db) :=
      (import_screenings_with_retry (feedM u.1 u.2) (feedS u.1 u.2) u.1 u.2 MAX_RETRIES db).getD
        ((0, 0), db)
    mainImportLoop feedM feedS us (tm + m) (ts + s)
      (if m = 0 ∧ s = 0 then failed ++ [u] else failed) db

/-- `main`'s exit status: `0` on full success, `1` when any unit failed. -/
def mainExitCode (failed : List (PyStr × PyStr)) : Nat :=
  if failed.isEmpty then 0 else 1

/-! ## bulk_operations.py: batch preparation and chunking -/

def BATCH_SIZE : Nat := 100

/-- `lst[i:i+BATCH_SIZE]` stepping: split a list into chunks of at most
`BATCH_SIZE` elements (structural on a fuel bound; `l.length` fuel always
suffices since each chunk consumes at least one element). -/
def chunksGo {α : Type} : Nat → List α → List (List α)
  | _, [] => []
  | 0, _ :: _ => []
  | fuel + 1, x :: rest =>
    (x :: rest.take (BATCH_SIZE - 1)) :: chunksGo fuel (rest.drop (BATCH_SIZE - 1))

def chunks100 {α : Type} (l : List α) : List (List α) := chunksGo l.length l

/-- Python `set.add`. -/
def setAdd (n : Nat) (s : List Nat) : List Nat := if n ∈ s then s else s ++ [n]

/-- The in-flight buffers built by the preparation loop of
`bulk_insert_movies_optimized`: `movies_to_insert` and the two link buffers
are plain lists (appended to), while `directors_to_insert` and
`languages_to_insert` are dicts keyed by director id and language code. -/
structure BulkPrep where
  movies_to_insert : List MovieRow
  movie_ids : List Nat
  directors_to_insert : List (Nat × DirectorRow)
  languages_to_insert : List (PyStr × LanguageRow)
  movie_directors_links : List MovieDirectorRow
  movie_languages_links : List MovieLanguageRow
deriving DecidableEq, Repr

/-- The director sub-loop of the preparation pass (no pydantic validation on
this path: names are used raw after the strip/space-split). -/
def bulkDirectorsLoop (movie_id : Nat) (st : BulkPrep) : List PyStr → BulkPrep
  | [] => st
  | nm :: nms =>
    let full := pyStrip nm
    let st :=
      if full.contains 32 then
        let (p0, p1o) := splitFirstCp 32 full
        let p1 := p1o.getD []
        let director_id := generate_director_id p0 p1
        { st with
          directors_to_insert := dictUpd director_id ⟨director_id, p0, p1⟩ st.directors_to_insert
          movie_directors_links := st.movie_directors_links ++ [⟨movie_id, director_id⟩] }
      else st
    bulkDirectorsLoop movie_id st nms

/-- The language sub-loop of the preparation pass (`label` defaults to the
code when the key is absent). -/
def bulkLanguagesLoop (movie_id : Nat) (st : BulkPrep) : List LangEntry → BulkPrep
  | [] => st
  | le :: les =>
    let st :=
      match le with
      | .dictE code label =>
        let c := code.getD []
        let lab := label.getD c
        if c.isEmpty then st
        else
          { st with
            languages_to_insert := dictUpd c ⟨c, lab⟩ st.languages_to_insert
            movie_languages_links := st.movie_languages_links ++ [⟨movie_id, c⟩] }
      | .strE s =>
        if s.isEmpty then st
        else
          { st with
            languages_to_insert := dictUpd s ⟨s, s⟩ st.languages_to_insert
            movie_languages_links := st.movie_languages_links ++ [⟨movie_id, s⟩] }
      | .otherE => st
    bulkLanguagesLoop movie_id st les

/-- `generate_movie_id(movie_data["title"], movie_data.get("originalTitle",
movie_data["title"]), parse_runtime(movie_data.get("runtime", "0")))`. -/
def bulkMovieId (title : PyStr) (r : MovieRecord) : Nat :=
  generate_movie_id title (r.originalTitle.getD title)
    (parse_runtime (some (r.runtime.getD (pyStr "0"))))

/-- `movie_ids.add(movie_id)` and the `movies_to_insert.append({...})` of one
record. -/
def bulkAddMovie (st : BulkPrep) (title : PyStr) (r : MovieRecord) : BulkPrep :=
  { st with
    movie_ids := setAdd (bulkMovieId title r) st.movie_ids
    movies_to_insert := st.movies_to_insert ++ [{
      id := bulkMovieId title r, title := title,
      original_title := r.originalTitle.getD title,
      synopsis := r.synopsisFull, poster_url := r.urlPoster,
      runtime := parse_runtime (some (r.runtime.getD (pyStr "0"))),
      has_dvd_release := r.hasDvdRelease,
      is_premiere := r.isPremiere, weekly_outing := r.weeklyOuting }] }

/-- One iteration of the preparation loop.  A record whose `"title"` key is
missing raises `KeyError` inside the `generate_movie_id` argument list, before
any buffer is touched; the per-record `except` catches it and continues. -/
def bulkPrepRecord (st : BulkPrep) (r : MovieRecord) : BulkPrep :=
  match r.title with
  | none => st
  | some title =>
    let st := bulkAddMovie st title r
    let st :=
      match r.director with
      | none => st
      | some dstr =>
        if dstr.isEmpty || dstr = pyStr "Unknown Director" then st
        else bulkDirectorsLoop (bulkMovieId title r) st (splitOnCp 124 dstr)
    match r.languages with
    | none => st
    | some langs => bulkLanguagesLoop (bulkMovieId title r) st langs

/-- The whole preparation pass of `bulk_insert_movies_optimized`. -/
def bulkPrepare (movies_data : List MovieRecord) : BulkPrep :=
  List.foldl bulkPrepRecord ⟨[], [], [], [], [], []⟩ movies_data

/-- The movie batches handed to `upsert(..., on_conflict="id")`. -/
def movieBatches (d : List MovieRecord) : List (List MovieRow) :=
  chunks100 (bulkPrepare d).movies_to_insert

/-- The director batches handed to `upsert(..., on_conflict="id")`
(`list(directors_to_insert.values())`, chunked). -/
def directorBatches (d : List MovieRecord) : List (List DirectorRow) :=
  chunks100 ((bulkPrepare d).directors_to_insert.map Prod.snd)

/-- The languages are upserted in a single call (`languages_list` is **not**
chunked in the source). -/
def languageBatch (d : List MovieRecord) : List LanguageRow :=
  (bulkPrepare d).languages_to_insert.map Prod.snd

/-- The movie-director link batches (`on_conflict="movie_id,director_id"`). -/
def movieDirectorBatches (d : List MovieRecord) : List (List MovieDirectorRow) :=
  chunks100 (bulkPrepare d).movie_directors_links

/-- The movie-language link batches (`on_conflict="movie_id,code"`). -/
def movieLanguageBatches (d : List MovieRecord) : List (List MovieLanguageRow) :=
  chunks100 (bulkPrepare d).movie_languages_links

/-! ## validate_data.py: duplicate-movie detection -/

structure Issue where
  category : PyStr
  description : PyStr
  severity : PyStr
deriving DecidableEq, Repr

/-- The grouping key of `check_duplicate_movies`:
`f"{title.lower().strip()}_{runtime}"`. -/
def movieGroupKey (m : MovieRow) : PyStr :=
  pyStrip (pyLower m.title) ++ [95] ++ natCp m.runtime

/-- `defaultdict(list)` accumulation: append to the group of the key,
creating it on first sight (insertion order preserved). -/
def groupAdd (k : PyStr) (m : MovieRow) (gs : List (PyStr × List MovieRow)) :
    List (PyStr × List MovieRow) :=
  if gs.any fun p => p.1 = k then gs.map fun p => if p.1 = k then (p.1, p.2 ++ [m]) else p
  else gs ++ [(k, [m])]

def movieGroups : List MovieRow → List (PyStr × List MovieRow) → List (PyStr × List MovieRow)
  | [], gs => gs
  | m :: ms, gs => movieGroups ms (groupAdd (movieGroupKey m) m gs)

/-- Python `str` of a list of ints: `[a, b, c]`. -/
def pyReprNatList (l : List Nat) : PyStr :=
  [91] ++ (List.intersperse (pyStr ", ") (l.map natCp)).flatten ++ [93]

/-- The ERROR issue emitted for one duplicate group. -/
def dupIssue (g : PyStr × List MovieRow) : Issue :=
  { category := pyStr "DUPLICATE_MOVIES"
    description :=
      pyStr "Film '" ++ (g.2.headD default).title ++ pyStr "' (" ++
        natCp (g.2.headD default).runtime ++ pyStr "min) existe " ++
        natCp g.2.length ++ pyStr " fois avec IDs: " ++ pyReprNatList (g.2.map MovieRow.id)
    severity := pyStr "ERROR" }

/-- `DataValidator.check_duplicate_movies`, as the list of issues it appends:
group the movies table by normalized title and runtime, one ERROR issue per
group of size > 1. -/
def check_duplicate_movies (movies : List MovieRow) : List Issue :=
  ((movieGroups movies []).filter fun g => 1 < g.2.length).map dupIssue

/-! ## Definitions supporting the theorems: spec-level predicates and
concrete example inputs -/

/-- The runtime-free part of the hash input of `generate_movie_id`: the
normalized title and normalized (or defaulted) original title joined by
`"_"`. -/
def hashInputZero (t o : PyStr) : PyStr :=
  normStr t ++ [95] ++ normStr (if o.isEmpty then normStr t else o)

/-- A movie record whose feed data is complete enough to be inserted. -/
def exMovieRec : MovieRecord :=
  { title := some (pyStr "Une Femme"), originalTitle := none, synopsisFull := none,
    urlPoster := none, runtime := some (pyStr "1h 30min"), director := none,
    languages := none, hasDvdRelease := false, isPremiere := false,
    weeklyOuting := false, releases := [] }

/-- One showtime entry matching `exMovieRec`. -/
def exShowtimes : List ShowtimeEntry :=
  [⟨pyStr "Une Femme", [⟨some (pyStr "2025-07-04T13:15:00"), some (pyStr "VF")⟩]⟩]

/-- A feed that raises on the first two attempts and succeeds on the third. -/
def exFeedM : Nat → Except PyStr (List MovieRecord) :=
  fun attempt => if attempt < 2 then .error (pyStr "timeout") else .ok [exMovieRec]

def exFeedS : Nat → Except PyStr (List ShowtimeEntry) :=
  fun attempt => if attempt < 2 then .error (pyStr "timeout") else .ok exShowtimes

/-- A complete movie record with a director and a language. -/
def exBulkRec : MovieRecord :=
  { title := some (pyStr "Une Femme"), originalTitle := none, synopsisFull := none,
    urlPoster := none, runtime := some (pyStr "1h 30min"),
    director := some (pyStr "Agnes Varda"),
    languages := some [.strE (pyStr "fr")], hasDvdRelease := false, isPremiere := false,
    weeklyOuting := false, releases := [] }

/-- C4's claimed property: every batch handed to the sink is free of
duplicate conflict keys (movies by id, directors by id, languages by code,
link rows by their pair keys). -/
def batchKeysUnique (d : List MovieRecord) : Prop :=
  (∀ b ∈ movieBatches d, (b.map MovieRow.id).Nodup) ∧
  (∀ b ∈ directorBatches d, (b.map DirectorRow.id).Nodup) ∧
  ((languageBatch d).map LanguageRow.code).Nodup ∧
  (∀ b ∈ movieDirectorBatches d, (b.map fun r => (r.movie_id, r.director_id)).Nodup) ∧
  (∀ b ∈ movieLanguageBatches d, (b.map fun r => (r.movie_id, r.code)).Nodup)

/-- The dict invariants of the preparation pass: unique keys, and each stored
row carries its key in its id/code field. -/
def DirInv (st : BulkPrep) : Prop :=
  (st.directors_to_insert.map Prod.fst).Nodup ∧
  ∀ p ∈ st.directors_to_insert, DirectorRow.id p.2 = p.1

def LangInv (st : BulkPrep) : Prop :=
  (st.languages_to_insert.map Prod.fst).Nodup ∧
  ∀ p ∈ st.languages_to_insert, LanguageRow.code p.2 = p.1

/-- Equality of two sink states on every table except `releases`. -/
def EqND (a b : DB) : Prop :=
  a.movies = b.movies ∧ a.directors = b.directors ∧ a.languages = b.languages ∧
  a.movie_directors = b.movie_directors ∧ a.movie_languages = b.movie_languages ∧
  a.screenings = b.screenings

/-! # Theorems -/

/-! ## Normalization lemmas -/

theorem lowerCp_idem (c : Nat) : lowerCp (lowerCp c) = lowerCp c := by
  by_cases h : 65 ≤ c ∧ c ≤ 90
  · simp only [lowerCp, if_pos h]
    rw [if_neg (by omega)]
  · simp only [lowerCp, if_neg h]

theorem isSpaceCp_lowerCp (c : Nat) : isSpaceCp (lowerCp c) = isSpaceCp c := by
  by_cases h : 65 ≤ c ∧ c ≤ 90
  · have h1 : isSpaceCp (c + 32) = false := by simp [isSpaceCp]; omega
    have h2 : isSpaceCp c = false := by simp [isSpaceCp]; omega
    simp only [lowerCp, if_pos h, h1, h2]
  · simp only [lowerCp, if_neg h]

theorem pyLower_idem (s : PyStr) : pyLower (pyLower s) = pyLower s := by
  simp only [pyLower, List.map_map]
  exact List.map_congr_left fun c _ => lowerCp_idem c

theorem pyStrip_eq_rdropWhile (s : PyStr) :
    pyStrip s = List.rdropWhile isSpaceCp (List.dropWhile isSpaceCp s) := rfl

theorem dropWhile_rdropWhile (p : Nat → Bool) (l : PyStr) (hl : l.dropWhile p = l) :
    (List.rdropWhile p l).dropWhile p = List.rdropWhile p l := by
  rcases hr : List.rdropWhile p l with _ | ⟨a, as⟩
  · rfl
  · have hpre : List.rdropWhile p l <+: l := List.rdropWhile_prefix p l
    rw [hr] at hpre
    obtain ⟨t, ht⟩ := hpre
    have hhead : ¬p a := by
      have := List.dropWhile_eq_self_iff.mp hl
      subst ht
      have h0 : 0 < (a :: (as ++ t)).length := by simp
      simpa using this h0
    simp [List.dropWhile, hhead]

theorem pyStrip_idem (s : PyStr) : pyStrip (pyStrip s) = pyStrip s := by
  rw [pyStrip_eq_rdropWhile, pyStrip_eq_rdropWhile,
    dropWhile_rdropWhile isSpaceCp _ (List.dropWhile_idempotent isSpaceCp s),
    List.rdropWhile_idempotent]

theorem normStr_pyStrip (s : PyStr) : normStr (pyStrip s) = normStr s := by
  simp only [normStr, pyStrip_idem]

theorem pyStrip_pyLower (s : PyStr) : pyStrip (pyLower s) = pyLower (pyStrip s) := by
  have hfun : (isSpaceCp ∘ lowerCp) = isSpaceCp := funext isSpaceCp_lowerCp
  have hdw : ∀ l : PyStr, (pyLower l).dropWhile isSpaceCp = pyLower (l.dropWhile isSpaceCp) := by
    intro l
    simp only [pyLower, List.dropWhile_map, hfun]
  have hrev : ∀ l : PyStr, (pyLower l).reverse = pyLower l.reverse := by
    intro l; simp [pyLower, List.map_reverse]
  simp only [pyStrip, hdw, hrev]

theorem normStr_idem (s : PyStr) : normStr (normStr s) = normStr s := by
  simp only [normStr, pyStrip_pyLower, pyStrip_idem, pyLower_idem]

theorem normStr_isEmpty_of_strip (s : PyStr) (h : (pyStrip s).isEmpty = true) :
    normStr s = [] := by
  simp only [normStr, pyLower]
  rw [List.isEmpty_iff] at h
  simp [h]

/-! ## C7: director parsing -/

/-- C7: director parsing splits on `|` and on the first interior space:
`"Joel Coen | Ethan Coen"` gives (Joel, Coen) and (Ethan, Coen); in
`"Madonna | Christopher Nolan"` the single-word Madonna is silently dropped;
the sentinel `"Unknown Director"` gives the empty list. -/
theorem directors_parsing_spec :
    parse_directors (some (pyStr "Joel Coen | Ethan Coen")) =
      [⟨pyStr "Joel", pyStr "Coen"⟩, ⟨pyStr "Ethan", pyStr "Coen"⟩] ∧
    parse_directors (some (pyStr "Madonna | Christopher Nolan")) =
      [⟨pyStr "Christopher", pyStr "Nolan"⟩] ∧
    parse_directors (some (pyStr "Unknown Director")) = [] := by
  decide

/-! ## C5: cinema id conversion -/

/-- C5: `cinema_id_to_int` maps a purely numeric identifier string to the
number it denotes (`"12345" ↦ 12345`), and every string deterministically to
an integer (two calls on equal input agree); for the non-numeric `"P3757"` the
hash branch yields the fixed integer 1973676166. -/
theorem cinema_id_to_int_spec :
    (∀ s : PyStr, pyIsDigit s = true → cinema_id_to_int s = pyStrToNat s) ∧
    cinema_id_to_int (pyStr "12345") = 12345 ∧
    cinema_id_to_int (pyStr "P3757") = 1973676166 ∧
    (∀ s t : PyStr, s = t → cinema_id_to_int s = cinema_id_to_int t) := by
  refine ⟨fun s h => by simp [cinema_id_to_int, h], by decide, by decide,
    fun s t h => by rw [h]⟩

/-- Witness for C5 at the concrete inputs of the claim. -/
theorem cinema_id_to_int_spec_witness :
    cinema_id_to_int (pyStr "12345") = pyStrToNat (pyStr "12345") ∧
    cinema_id_to_int (pyStr "P3757") = cinema_id_to_int (pyStr "P3757") :=
  ⟨cinema_id_to_int_spec.1 (pyStr "12345") (by decide),
   cinema_id_to_int_spec.2.2.2 (pyStr "P3757") (pyStr "P3757") rfl⟩

/-! ## C10: bulk_insert_movies accounting -/

theorem bulk_insert_movies_counts (rs : List MovieRecord) :
    ∀ (inserted skipped : Nat) (db : DB),
      (bulk_insert_movies rs inserted skipped db).1.1 +
        (bulk_insert_movies rs inserted skipped db).1.2 =
        inserted + skipped + rs.length := by
  induction rs with
  | nil => intro i s db; simp [bulk_insert_movies]
  | cons r rs ih =>
    intro i s db
    unfold bulk_insert_movies
    by_cases h : (r.title.getD []).isEmpty
    · simp only [if_pos h, ih, List.length_cons]; omega
    · simp only [if_neg h]
      rcases hins : insert_movie r db with ⟨mid, db2⟩
      by_cases ht : optTruthy mid
      · simp only [hins, if_pos ht, ih, List.length_cons]; omega
      · simp only [hins, if_neg ht, ih, List.length_cons]; omega

/-- C10: `bulk_insert_movies` counts every input record exactly once — the
inserted and skipped counters always sum to the number of input records, and
the function is total (never raises). -/
theorem bulk_insert_movies_spec (rs : List MovieRecord) (db : DB) :
    (bulk_insert_movies rs 0 0 db).1.1 + (bulk_insert_movies rs 0 0 db).1.2 = rs.length := by
  simpa using bulk_insert_movies_counts rs 0 0 db

/-! ## C9: insert_screening result and idempotence on an existing key -/

/-- C9: `insert_screening` returns `False` exactly when the date field is
falsy (the only other `False` path in the source is a raised sink call, and
sink calls in this model are total); a falsy date leaves the sink unchanged;
and when a row with the same `(movie_id, cinema_id, date, starts_at)`
composite key is already present it returns `True` without writing. -/
theorem insert_screening_spec (sd : ScreeningData) (mid : Nat) (cid : PyStr) (db : DB) :
    ((insert_screening sd mid cid db).1 = false ↔ sd.date = none ∨ sd.date = some []) ∧
    (sd.date = none ∨ sd.date = some [] → insert_screening sd mid cid db = (false, db)) ∧
    (∀ d, sd.date = some d → d ≠ [] →
      db.screenings.any (screeningMatches mid (cinema_id_to_int cid) d (screeningTime sd)) = true →
      insert_screening sd mid cid db = (true, db)) := by
  rcases hd : sd.date with _ | d
  · refine ⟨by simp [insert_screening, hd], fun _ => by simp [insert_screening, hd],
      fun d hsome => by simp [hd] at hsome⟩
  · by_cases hnil : d = []
    · subst hnil
      refine ⟨by simp [insert_screening, hd], fun _ => by simp [insert_screening, hd],
        fun d' hsome hne _ => by simp [hd] at hsome; simp [hsome] at hne⟩
    · have hne : d.isEmpty = false := by
        cases d with
        | nil => exact absurd rfl hnil
        | cons a as => rfl
      refine ⟨?_, ?_, ?_⟩
      · simp only [insert_screening, hd, hne]
        constructor
        · intro hfalse
          by_cases hex : db.screenings.any
              (screeningMatches mid (cinema_id_to_int cid) d (screeningTime sd)) = true
          · rw [if_pos hex] at hfalse; exact absurd hfalse (by simp)
          · rw [if_neg hex] at hfalse; exact absurd hfalse (by simp)
        · rintro (h | h)
          · exact absurd h (by simp)
          · rw [Option.some_inj] at h; exact absurd h hnil
      · rintro (h | h)
        · exact absurd h (by simp)
        · rw [Option.some_inj] at h; exact absurd h hnil
      · intro d' hsome hne' hex
        rw [Option.some_inj] at hsome
        subst hsome
        simp only [insert_screening, hd, hne, if_pos hex]
        simp

/-- Witness for C9 at a concrete screening, sink state and cinema id. -/
theorem insert_screening_spec_witness :
    let sd : ScreeningData :=
      { date := some (pyStr "2025-07-04"), time := some (pyStr "13:15:00"),
        starts_at := none, version := none, diffusion_version := none }
    ((insert_screening sd 7 (pyStr "123") emptyDB).1 = false ↔
      sd.date = none ∨ sd.date = some []) ∧
    (sd.date = none ∨ sd.date = some [] → insert_screening sd 7 (pyStr "123") emptyDB = (false, emptyDB)) ∧
    (∀ d, sd.date = some d → d ≠ [] →
      emptyDB.screenings.any
        (screeningMatches 7 (cinema_id_to_int (pyStr "123")) d (screeningTime sd)) = true →
      insert_screening sd 7 (pyStr "123") emptyDB = (true, emptyDB)) :=
  insert_screening_spec _ 7 (pyStr "123") emptyDB

/-! ## C8: duplicate-movie detection -/

/-- C8: on a movies table holding exactly two rows that agree on the
normalized (lowercased, stripped) title and on the runtime but have different
ids, `check_duplicate_movies` emits exactly one issue, of ERROR severity,
whose description names both ids. -/
theorem check_duplicate_movies_spec (r1 r2 : MovieRow)
    (htitle : pyStrip (pyLower r1.title) = pyStrip (pyLower r2.title))
    (hrt : r1.runtime = r2.runtime) (_hid : r1.id ≠ r2.id) :
    check_duplicate_movies [r1, r2] =
      [{ category := pyStr "DUPLICATE_MOVIES"
         description := pyStr "Film '" ++ r1.title ++ pyStr "' (" ++ natCp r1.runtime ++
           pyStr "min) existe " ++ natCp 2 ++ pyStr " fois avec IDs: " ++
           pyReprNatList [r1.id, r2.id]
         severity := pyStr "ERROR" }] := by
  have hk : movieGroupKey r2 = movieGroupKey r1 := by
    simp only [movieGroupKey, htitle, hrt]
  simp [check_duplicate_movies, movieGroups, groupAdd, hk, dupIssue]

/-- Witness for C8: two rows with equal normalized title and runtime but
distinct ids. -/
theorem check_duplicate_movies_spec_witness :
    check_duplicate_movies
      [{ id := 1, title := pyStr " The Matrix", original_title := pyStr "The Matrix",
         synopsis := none, poster_url := none, runtime := 136,
         has_dvd_release := false, is_premiere := false, weekly_outing := false },
       { id := 2, title := pyStr "the matrix  ", original_title := pyStr "The Matrix",
         synopsis := none, poster_url := none, runtime := 136,
         has_dvd_release := false, is_premiere := false, weekly_outing := false }] =
      [{ category := pyStr "DUPLICATE_MOVIES"
         description := pyStr "Film '" ++ pyStr " The Matrix" ++ pyStr "' (" ++ natCp 136 ++
           pyStr "min) existe " ++ natCp 2 ++ pyStr " fois avec IDs: " ++
           pyReprNatList [1, 2]
         severity := pyStr "ERROR" }] :=
  check_duplicate_movies_spec _ _ (by decide) (by decide) (by decide)

/-! ## C6: runtime enters the hash input exactly when positive -/


/-- C6: for runtime 0 the hash input of `generate_movie_id` is built from the
normalized titles alone, so the id at runtime 0 is fully determined by the
normalized title components; for every positive runtime, the runtime is
appended to the hash input. -/
theorem movie_id_runtime_in_hash :
    (∀ t o, generate_movie_id t o 0 =
      bytesBe4 (sha256 (utf8Encode (hashInputZero t o))) % 100000000) ∧
    (∀ t o r, 0 < r → generate_movie_id t o r =
      bytesBe4 (sha256 (utf8Encode (hashInputZero t o ++ [95] ++ natCp r))) % 100000000) ∧
    (∀ t1 o1 t2 o2, hashInputZero t1 o1 = hashInputZero t2 o2 →
      generate_movie_id t1 o1 0 = generate_movie_id t2 o2 0) := by
  refine ⟨fun t o => ?_, fun t o r hr => ?_, fun t1 o1 t2 o2 h => ?_⟩
  · simp [generate_movie_id, hashInputZero]
  · simp [generate_movie_id, hashInputZero, hr, List.append_assoc]
  · simp only [generate_movie_id]
    have h' : normStr t1 ++ [95] ++ normStr (if o1.isEmpty then normStr t1 else o1) ++
          (if 0 > 0 then [95] ++ natCp 0 else []) =
        normStr t2 ++ [95] ++ normStr (if o2.isEmpty then normStr t2 else o2) ++
          (if 0 > 0 then [95] ++ natCp 0 else []) := by
      simpa [hashInputZero] using h
    rw [h']

/-- Witness for C6 at concrete titles and runtime 90. -/
theorem movie_id_runtime_in_hash_witness :
    generate_movie_id (pyStr "The Matrix") (pyStr "") 0 =
      bytesBe4 (sha256 (utf8Encode (hashInputZero (pyStr "The Matrix") (pyStr "")))) % 100000000 ∧
    generate_movie_id (pyStr "The Matrix") (pyStr "") 90 =
      bytesBe4 (sha256 (utf8Encode
        (hashInputZero (pyStr "The Matrix") (pyStr "") ++ [95] ++ natCp 90))) % 100000000 ∧
    generate_movie_id (pyStr " the matrix") (pyStr "MATRIX ") 0 =
      generate_movie_id (pyStr "The Matrix ") (pyStr " Matrix") 0 :=
  ⟨movie_id_runtime_in_hash.1 (pyStr "The Matrix") (pyStr ""),
   movie_id_runtime_in_hash.2.1 (pyStr "The Matrix") (pyStr "") 90 (by decide),
   movie_id_runtime_in_hash.2.2 _ _ _ _ (by decide)⟩

/-! ## C1: purity, normalization and range of generate_movie_id -/

/-- C1 as stated is false on one edge: an empty `original_title` is falsy and
falls back to the title before stripping, while a whitespace-only
`original_title` is truthy and strips to the empty string — two inputs that
differ only by leading/trailing whitespace yet hash differently. -/
theorem movie_id_whitespace_counterexample :
    ¬(generate_movie_id (pyStr "x") (pyStr "") 0 =
      generate_movie_id (pyStr "x") (pyStr " ") 0) := by
  decide

/-- C1 amended: `generate_movie_id` is pure and always lands in
`[0, 100000000)`; inputs differing only by leading/trailing whitespace or
letter case give the same id, **provided** the two `original_title` inputs are
both empty or both non-empty (the Python truthiness check precedes the
strip). -/
theorem movie_id_pure_normalized :
    (∀ t o r, generate_movie_id t o r < 100000000) ∧
    (∀ t1 o1 t2 o2 r, normStr t1 = normStr t2 → normStr o1 = normStr o2 →
      o1.isEmpty = o2.isEmpty →
      generate_movie_id t1 o1 r = generate_movie_id t2 o2 r) := by
  constructor
  · intro t o r
    exact Nat.mod_lt _ (by norm_num)
  · intro t1 o1 t2 o2 r ht ho hempty
    have hz : hashInputZero t1 o1 = hashInputZero t2 o2 := by
      rcases he : o1.isEmpty with _ | _
      · simp [hashInputZero, he, ← hempty, ht, ho]
      · simp [hashInputZero, he, ← hempty, ht, normStr_idem]
    have : ∀ t o (r : Nat),
        generate_movie_id t o r =
          bytesBe4 (sha256 (utf8Encode
            (hashInputZero t o ++ (if r > 0 then [95] ++ natCp r else [])))) % 100000000 := by
      intro t o r
      simp [generate_movie_id, hashInputZero, List.append_assoc]
    rw [this, this, hz]

/-- Witness for C1 at concrete whitespace/case variants. -/
theorem movie_id_pure_normalized_witness :
    generate_movie_id (pyStr "  The Matrix") (pyStr "the matrix ") 136 < 100000000 ∧
    generate_movie_id (pyStr "  The Matrix") (pyStr "the matrix ") 136 =
      generate_movie_id (pyStr "the matrix") (pyStr " THE MATRIX") 136 :=
  ⟨movie_id_pure_normalized.1 _ _ 136,
   movie_id_pure_normalized.2 _ _ _ _ 136 (by decide) (by decide) (by decide)⟩

/-! ## C3: the retry wrapper never retries feed failures -/






/-- C3 (code bug): because `process_cinema_screenings` catches every feed
exception internally and returns `(0, 0)`, the retry wrapper always returns
its first attempt (first conjunct), so a feed that raises on attempts 1 and 2
and succeeds on attempt 3 yields `(0, 0)` with an untouched sink — the unit is
recorded in `failed_imports` and the exit code is 1 — even though the third
attempt would have imported 1 movie and 1 screening. -/
theorem retry_dead_code_spec :
    (∀ fM fS cid d maxr db, 0 < maxr →
      import_screenings_with_retry fM fS cid d maxr db =
        some (process_cinema_screenings (fM 0) (fS 0) cid d db)) ∧
    import_screenings_with_retry exFeedM exFeedS (pyStr "P3757") (pyStr "2025-07-04")
      MAX_RETRIES emptyDB = some ((0, 0), emptyDB) ∧
    (process_cinema_screenings (exFeedM 2) (exFeedS 2) (pyStr "P3757") (pyStr "2025-07-04")
      emptyDB).1 = (1, 1) ∧
    mainImportLoop (fun _ _ => exFeedM) (fun _ _ => exFeedS)
      [(pyStr "P3757", pyStr "2025-07-04")] 0 0 [] emptyDB =
      ((0, 0, [(pyStr "P3757", pyStr "2025-07-04")]), emptyDB) ∧
    mainExitCode [(pyStr "P3757", pyStr "2025-07-04")] = 1 := by
  refine ⟨?_, by decide, by decide, by decide, by decide⟩
  intro fM fS cid d maxr db hm
  cases maxr with
  | zero => omega
  | succ n =>
    simp [import_screenings_with_retry, retryLoop, retryGo]

/-- Witness for C3's universally quantified conjunct at the concrete feed. -/
theorem retry_dead_code_spec_witness :
    0 < MAX_RETRIES ∧
    import_screenings_with_retry exFeedM exFeedS (pyStr "P3757") (pyStr "2025-07-04")
      MAX_RETRIES emptyDB =
      some (process_cinema_screenings (exFeedM 0) (exFeedS 0) (pyStr "P3757")
        (pyStr "2025-07-04") emptyDB) :=
  ⟨by decide,
   retry_dead_code_spec.1 exFeedM exFeedS (pyStr "P3757") (pyStr "2025-07-04")
     MAX_RETRIES emptyDB (by decide)⟩

/-! ## C4: deduplication and batching in the bulk path -/



/-- C4 is false as stated: the same movie record appearing twice in one call
produces a movie batch with two rows sharing the same id (and link batches
with duplicated pair keys), because `movies_to_insert`,
`movie_directors_links` and `movie_languages_links` are plain appended lists —
only the director and language dicts deduplicate. -/
theorem bulk_dedup_counterexample : ¬batchKeysUnique [exBulkRec, exBulkRec] := by
  unfold batchKeysUnique
  decide

theorem chunksGo_mem {α : Type} :
    ∀ (fuel : Nat) (l : List α), l.length ≤ fuel →
      ∀ b ∈ chunksGo fuel l, b.length ≤ BATCH_SIZE ∧ b.Sublist l := by
  intro fuel
  induction fuel with
  | zero =>
    intro l hl b hb
    cases l with
    | nil => simp [chunksGo] at hb
    | cons x xs => simp at hl
  | succ fuel ih =>
    intro l hl b hb
    cases l with
    | nil => simp [chunksGo] at hb
    | cons x rest =>
      rw [chunksGo] at hb
      rcases List.mem_cons.mp hb with rfl | hmem
      · refine ⟨?_, List.cons_sublist_cons.mpr (List.take_sublist _ _)⟩
        have := List.length_take_le (BATCH_SIZE - 1) rest
        simp only [List.length_cons, BATCH_SIZE] at *
        omega
      · have h2 := ih (rest.drop (BATCH_SIZE - 1))
          (by simp only [List.length_drop]; simp only [List.length_cons] at hl; omega) b hmem
        exact ⟨h2.1, h2.2.trans ((List.drop_sublist _ _).cons x)⟩

theorem chunks100_mem {α : Type} (l : List α) :
    ∀ b ∈ chunks100 l, b.length ≤ BATCH_SIZE ∧ b.Sublist l :=
  chunksGo_mem l.length l (Nat.le_refl _)

theorem dictUpd_map_fst {κ β : Type} [DecidableEq κ] (k : κ) (v : β) (d : List (κ × β))
    (h : (d.map Prod.fst).Nodup) : ((dictUpd k v d).map Prod.fst).Nodup := by
  unfold dictUpd
  split
  · have he : (d.map fun p => if p.1 = k then (k, v) else p).map Prod.fst = d.map Prod.fst := by
      simp only [List.map_map]
      apply List.map_congr_left
      intro p _
      by_cases hp : p.1 = k
      · simp [hp]
      · simp [hp]
    rw [he]
    exact h
  · rename_i hany
    rw [List.map_append]
    refine List.Nodup.append h (List.nodup_singleton k) ?_
    intro a ha hb
    simp only [List.map_cons, List.map_nil, List.mem_singleton] at hb
    subst hb
    rw [List.mem_map] at ha
    obtain ⟨p, hp, hpk⟩ := ha
    exact hany (List.any_eq_true.mpr ⟨p, hp, by simp [hpk]⟩)

theorem dictUpd_forall {κ β : Type} [DecidableEq κ] (P : κ × β → Prop) (k : κ) (v : β)
    (d : List (κ × β)) (hd : ∀ p ∈ d, P p) (hkv : P (k, v)) : ∀ p ∈ dictUpd k v d, P p := by
  unfold dictUpd
  split
  · intro p hp
    rw [List.mem_map] at hp
    obtain ⟨q, hq, hqe⟩ := hp
    by_cases h : q.1 = k
    · simp only [h, if_true] at hqe
      exact hqe ▸ hkv
    · simp only [h, if_false] at hqe
      exact hqe ▸ hd q hq
  · intro p hp
    rw [List.mem_append] at hp
    rcases hp with hp | hp
    · exact hd p hp
    · rw [List.mem_singleton] at hp
      exact hp ▸ hkv




theorem bulkDirectorsLoop_inv (movie_id : Nat) :
    ∀ (nms : List PyStr) (st : BulkPrep), DirInv st → LangInv st →
      DirInv (bulkDirectorsLoop movie_id st nms) ∧
      LangInv (bulkDirectorsLoop movie_id st nms) := by
  intro nms
  induction nms with
  | nil => intro st hd hl; exact ⟨hd, hl⟩
  | cons nm nms ih =>
    intro st hd hl
    rw [bulkDirectorsLoop]
    by_cases hc : (pyStrip nm).contains 32
    · simp only [hc, if_true]
      exact ih _ ⟨dictUpd_map_fst _ _ _ hd.1, dictUpd_forall _ _ _ _ hd.2 rfl⟩ hl
    · simp only [hc, if_false]
      exact ih st hd hl

theorem bulkLanguagesLoop_inv (movie_id : Nat) :
    ∀ (les : List LangEntry) (st : BulkPrep), DirInv st → LangInv st →
      DirInv (bulkLanguagesLoop movie_id st les) ∧
      LangInv (bulkLanguagesLoop movie_id st les) := by
  intro les
  induction les with
  | nil => intro st hd hl; exact ⟨hd, hl⟩
  | cons le les ih =>
    intro st hd hl
    rcases le with ⟨code, label⟩ | s | _
    · rw [bulkLanguagesLoop]
      by_cases hc : (code.getD []).isEmpty
      · simp only [hc, if_true]
        exact ih st hd hl
      · simp only [hc, if_false]
        exact ih _ hd ⟨dictUpd_map_fst _ _ _ hl.1, dictUpd_forall _ _ _ _ hl.2 rfl⟩
    · rw [bulkLanguagesLoop]
      by_cases hc : s.isEmpty
      · simp only [hc, if_true]
        exact ih st hd hl
      · simp only [hc, if_false]
        exact ih _ hd ⟨dictUpd_map_fst _ _ _ hl.1, dictUpd_forall _ _ _ _ hl.2 rfl⟩
    · rw [bulkLanguagesLoop]
      exact ih st hd hl

theorem bulkPrepRecord_inv (st : BulkPrep) (r : MovieRecord)
    (hd : DirInv st) (hl : LangInv st) :
    DirInv (bulkPrepRecord st r) ∧ LangInv (bulkPrepRecord st r) := by
  unfold bulkPrepRecord
  rcases r.title with _ | title
  · exact ⟨hd, hl⟩
  · simp only
    have hd1 : DirInv (bulkAddMovie st title r) := hd
    have hl1 : LangInv (bulkAddMovie st title r) := hl
    rcases r.director with _ | dstr
    · rcases r.languages with _ | langs
      · exact ⟨hd1, hl1⟩
      · exact bulkLanguagesLoop_inv _ langs _ hd1 hl1
    · obtain ⟨hd2, hl2⟩ :=
        bulkDirectorsLoop_inv (bulkMovieId title r) (splitOnCp 124 dstr) _ hd1 hl1
      rcases r.languages with _ | langs
      · dsimp only
        cases hc : dstr.isEmpty || decide (dstr = pyStr "Unknown Director")
        · exact ⟨hd2, hl2⟩
        · exact ⟨hd1, hl1⟩
      · dsimp only
        cases hc : dstr.isEmpty || decide (dstr = pyStr "Unknown Director")
        · exact bulkLanguagesLoop_inv _ langs _ hd2 hl2
        · exact bulkLanguagesLoop_inv _ langs _ hd1 hl1

theorem bulkPrepare_inv (d : List MovieRecord) :
    DirInv (bulkPrepare d) ∧ LangInv (bulkPrepare d) := by
  have : ∀ (l : List MovieRecord) (st : BulkPrep), DirInv st → LangInv st →
      DirInv (List.foldl bulkPrepRecord st l) ∧ LangInv (List.foldl bulkPrepRecord st l) := by
    intro l
    induction l with
    | nil => intro st hd hl; exact ⟨hd, hl⟩
    | cons r l ih =>
      intro st hd hl
      have h := bulkPrepRecord_inv st r hd hl
      exact ih _ h.1 h.2
  exact this d _ ⟨List.nodup_nil, by simp⟩ ⟨List.nodup_nil, by simp⟩

/-- C4 amended: batches on every chunked table respect the `BATCH_SIZE = 100`
cap; the director buffer (a dict keyed by director id) and the language buffer
(a dict keyed by code, sent as one unchunked upsert) are deduplicated, so
their batches carry pairwise-distinct conflict keys.  Movie rows and the two
link-row buffers are **not** deduplicated (see the counterexample). -/
theorem bulk_batches_amended (d : List MovieRecord) :
    (∀ b ∈ movieBatches d, b.length ≤ BATCH_SIZE) ∧
    (∀ b ∈ directorBatches d, b.length ≤ BATCH_SIZE ∧ (b.map DirectorRow.id).Nodup) ∧
    ((languageBatch d).map LanguageRow.code).Nodup ∧
    (∀ b ∈ movieDirectorBatches d, b.length ≤ BATCH_SIZE) ∧
    (∀ b ∈ movieLanguageBatches d, b.length ≤ BATCH_SIZE) := by
  obtain ⟨hdinv, hlinv⟩ := bulkPrepare_inv d
  have hdir : (((bulkPrepare d).directors_to_insert.map Prod.snd).map DirectorRow.id).Nodup := by
    rw [List.map_map]
    have he : (bulkPrepare d).directors_to_insert.map (DirectorRow.id ∘ Prod.snd) =
        (bulkPrepare d).directors_to_insert.map Prod.fst :=
      List.map_congr_left fun p hp => hdinv.2 p hp
    rw [he]
    exact hdinv.1
  refine ⟨fun b hb => (chunks100_mem _ b hb).1,
    fun b hb => ⟨(chunks100_mem _ b hb).1, ?_⟩, ?_,
    fun b hb => (chunks100_mem _ b hb).1,
    fun b hb => (chunks100_mem _ b hb).1⟩
  · exact hdir.sublist (List.Sublist.map _ (chunks100_mem _ b hb).2)
  · simp only [languageBatch, List.map_map]
    have he : (bulkPrepare d).languages_to_insert.map (LanguageRow.code ∘ Prod.snd) =
        (bulkPrepare d).languages_to_insert.map Prod.fst :=
      List.map_congr_left fun p hp => hlinv.2 p hp
    rw [he]
    exact hlinv.1

/-! ## C2: re-running the reconciliation is a no-op on all non-release tables

The development below shows that a second run of `process_cinema_screenings`
on the same feed leaves `movies`, `directors`, `languages`, `movie_directors`,
`movie_languages` and `screenings` exactly as the first run left them (only
the `releases` table, written by a bare insert, may grow). -/


theorem eqnd_refl (a : DB) : EqND a a := ⟨rfl, rfl, rfl, rfl, rfl, rfl⟩

theorem eqnd_trans {a b c : DB} (h1 : EqND a b) (h2 : EqND b c) : EqND a c := by
  obtain ⟨x1, x2, x3, x4, x5, x6⟩ := h1
  obtain ⟨y1, y2, y3, y4, y5, y6⟩ := h2
  exact ⟨x1.trans y1, x2.trans y2, x3.trans y3, x4.trans y4, x5.trans y5, x6.trans y6⟩

/-- `movie_exists` as a membership statement. -/
theorem movie_exists_iff (i : Nat) (db : DB) :
    movie_exists i db = true ↔ i ∈ db.movies.map MovieRow.id := by
  simp only [movie_exists, List.any_eq_true, List.mem_map, decide_eq_true_eq]

theorem movie_exists_append (i : Nat) (db : DB) (t : List MovieRow)
    (h : movie_exists i db = true) :
    ∀ db' : DB, db'.movies = db.movies ++ t → movie_exists i db' = true := by
  intro db' he
  simp only [movie_exists, he, List.any_append, Bool.or_eq_true]
  exact Or.inl h

/-- `generate_movie_id` depends only on the runtime-free hash input. -/
theorem gmi_eq_of_hiz (t1 o1 t2 o2 : PyStr) (r : Nat)
    (h : hashInputZero t1 o1 = hashInputZero t2 o2) :
    generate_movie_id t1 o1 r = generate_movie_id t2 o2 r := by
  have hrepr : ∀ t o (rt : Nat), generate_movie_id t o rt =
      bytesBe4 (sha256 (utf8Encode
        (hashInputZero t o ++ (if rt > 0 then [95] ++ natCp rt else [])))) % 100000000 := by
    intro t o rt
    simp [generate_movie_id, hashInputZero, List.append_assoc]
  rw [hrepr, hrepr, h]

theorem parse_runtime_getD (x : Option PyStr) :
    parse_runtime (some (x.getD (pyStr "0min"))) = parse_runtime x := by
  rcases x with _ | s
  · show parse_runtime (some (pyStr "0min")) = parse_runtime none
    decide
  · rfl

/-- The id computed by `insert_movie` from the validated record and the
fallback id recomputed from the raw record agree. -/
theorem validated_id_eq_fallback (r : MovieRecord) (m : MovieData)
    (hv : validateMovieData r = some m) :
    generate_movie_id m.title (if m.originalTitle.isEmpty then m.title else m.originalTitle)
      (parse_runtime m.runtime) = fallbackId r := by
  unfold validateMovieData at hv
  rcases ht : r.title with _ | t
  · rw [ht] at hv; exact absurd hv (by simp)
  · rw [ht] at hv
    dsimp only at hv
    by_cases hs : (pyStrip t).isEmpty
    · rw [if_pos hs] at hv; exact absurd hv (by simp)
    · rw [if_neg hs] at hv
      rw [Option.some_inj] at hv
      subst hv
      unfold fallbackId
      rw [ht]
      simp only [Option.getD_some]
      rw [parse_runtime_getD]
      have htne : t.isEmpty = false := by
        rcases t with _ | ⟨c, cs⟩
        · exact absurd (by decide) hs
        · rfl
      apply gmi_eq_of_hiz
      unfold hashInputZero
      rcases r.originalTitle with _ | o
      · simp only [Option.getD_none, htne, Bool.false_eq_true, if_false]
        by_cases hse : (pyStrip t).isEmpty
        · exact absurd hse hs
        · simp only [hse, Bool.false_eq_true, if_false, normStr_pyStrip]
      · by_cases hoe : o.isEmpty
        · simp only [Option.getD_some, hoe, if_true]
          by_cases hse : (pyStrip t).isEmpty
          · exact absurd hse hs
          · simp only [hse, Bool.false_eq_true, if_false, normStr_pyStrip, normStr_idem]
        · simp only [Option.getD_some, hoe, Bool.false_eq_true, if_false, normStr_pyStrip]

/-- When `insert_movie` returns an id, it is the fallback id. -/
theorem insert_movie_fst (r : MovieRecord) (db : DB) (i : Nat)
    (h : (insert_movie r db).1 = some i) : i = fallbackId r := by
  unfold insert_movie at h
  rcases hv : validateMovieData r with _ | m
  · rw [hv] at h; exact absurd h (by simp)
  · rw [hv] at h
    dsimp only at h
    by_cases he : movie_exists
        (generate_movie_id m.title (if m.originalTitle.isEmpty then m.title else m.originalTitle)
          (parse_runtime m.runtime)) db
    · rw [if_pos he] at h; exact absurd h (by simp)
    · rw [if_neg he] at h
      simp only [Option.some_inj] at h
      rw [← h]
      exact validated_id_eq_fallback r m hv

/-- When the fallback id is already present (or validation fails),
`insert_movie` is a no-op returning `None`. -/
theorem insert_movie_skip (r : MovieRecord) (db : DB)
    (h : ∀ m, validateMovieData r = some m → movie_exists (fallbackId r) db = true) :
    insert_movie r db = (none, db) := by
  unfold insert_movie
  rcases hv : validateMovieData r with _ | m
  · rfl
  · dsimp only
    rw [← validated_id_eq_fallback r m hv] at h
    rw [if_pos (h m hv)]

/-! Frames: which tables each operation can touch. -/

theorem insertDirectorsLoop_frame (mid : Nat) :
    ∀ (ds : List Director) (db : DB),
      (insertDirectorsLoop mid ds db).movies = db.movies ∧
      (insertDirectorsLoop mid ds db).languages = db.languages ∧
      (insertDirectorsLoop mid ds db).movie_languages = db.movie_languages ∧
      (insertDirectorsLoop mid ds db).screenings = db.screenings ∧
      (insertDirectorsLoop mid ds db).releases = db.releases := by
  intro ds
  induction ds with
  | nil => intro db; exact ⟨rfl, rfl, rfl, rfl, rfl⟩
  | cons d ds ih =>
    intro db
    rw [insertDirectorsLoop]
    exact ih _

theorem insertLanguagesLoop_frame (mid : Nat) :
    ∀ (ls : List Language) (db : DB),
      (insertLanguagesLoop mid ls db).movies = db.movies ∧
      (insertLanguagesLoop mid ls db).directors = db.directors ∧
      (insertLanguagesLoop mid ls db).movie_directors = db.movie_directors ∧
      (insertLanguagesLoop mid ls db).screenings = db.screenings ∧
      (insertLanguagesLoop mid ls db).releases = db.releases := by
  intro ls
  induction ls with
  | nil => intro db; exact ⟨rfl, rfl, rfl, rfl, rfl⟩
  | cons l ls ih =>
    intro db
    rw [insertLanguagesLoop]
    exact ih _

/-- `insert_movie` never touches screenings. -/
theorem insert_movie_screenings (r : MovieRecord) (db : DB) :
    (insert_movie r db).2.screenings = db.screenings := by
  unfold insert_movie
  rcases hv : validateMovieData r with _ | m
  · rfl
  · dsimp only
    by_cases he : movie_exists
        (generate_movie_id m.title (if m.originalTitle.isEmpty then m.title else m.originalTitle)
          (parse_runtime m.runtime)) db
    · rw [if_pos he]
    · rw [if_neg he]
      dsimp only
      unfold insert_languages insert_directors
      rw [(insertLanguagesLoop_frame _ _ _).2.2.2.1, (insertDirectorsLoop_frame _ _ _).2.2.2.1]

/-- `insert_movie` only makes the movies table grow: any id present before is
present afterwards. -/
theorem insert_movie_exists_mono (r : MovieRecord) (db : DB) (i : Nat)
    (h : movie_exists i db = true) : movie_exists i (insert_movie r db).2 = true := by
  unfold insert_movie
  rcases hv : validateMovieData r with _ | m
  · exact h
  · dsimp only
    by_cases he : movie_exists
        (generate_movie_id m.title (if m.originalTitle.isEmpty then m.title else m.originalTitle)
          (parse_runtime m.runtime)) db
    · rw [if_pos he]
      exact h
    · rw [if_neg he]
      dsimp only
      unfold insert_languages insert_directors
      unfold movie_exists at h ⊢
      rw [(insertLanguagesLoop_frame _ _ _).1, (insertDirectorsLoop_frame _ _ _).1]
      simp only [List.any_append, Bool.or_eq_true]
      exact Or.inl h

/-- After `insert_movie` on a record that validates, the fallback id is
present in the movies table. -/
theorem insert_movie_post (r : MovieRecord) (db : DB) (m : MovieData)
    (hv : validateMovieData r = some m) :
    movie_exists (fallbackId r) (insert_movie r db).2 = true := by
  unfold insert_movie
  rw [hv]
  dsimp only
  rw [← validated_id_eq_fallback r m hv]
  by_cases he : movie_exists
      (generate_movie_id m.title (if m.originalTitle.isEmpty then m.title else m.originalTitle)
        (parse_runtime m.runtime)) db
  · rw [if_pos he]
    exact he
  · rw [if_neg he]
    dsimp only
    unfold insert_languages insert_directors
    unfold movie_exists
    rw [(insertLanguagesLoop_frame _ _ _).1, (insertDirectorsLoop_frame _ _ _).1]
    simp

theorem insert_release_eqnd (mid : Nat) (rel : ReleaseRec) (db : DB) :
    EqND (insert_release mid rel db).2 db := by
  unfold insert_release
  rcases rel.releaseDate with _ | d
  · exact eqnd_refl db
  · dsimp only
    by_cases hd : d.isEmpty
    · rw [if_pos hd]; exact eqnd_refl db
    · rw [if_neg hd]; exact ⟨rfl, rfl, rfl, rfl, rfl, rfl⟩

theorem insertReleasesLoop_eqnd (mid : Nat) :
    ∀ (rels : List ReleaseRec) (db : DB), EqND (insertReleasesLoop mid rels db) db := by
  intro rels
  induction rels with
  | nil => intro db; exact eqnd_refl db
  | cons rel rels ih =>
    intro db
    rw [insertReleasesLoop]
    by_cases hc : (rel.releaseDate.getD []).isEmpty
    · simp only [hc, Bool.not_true, Bool.false_eq_true, if_false]
      exact ih db
    · simp only [hc, Bool.not_false, if_true]
      exact eqnd_trans (ih _) (insert_release_eqnd mid rel db)

theorem movie_exists_eq_of (i : Nat) (a b : DB) (h : a.movies = b.movies) :
    movie_exists i a = movie_exists i b := by
  unfold movie_exists
  rw [h]

/-- The movie loop only makes the movies table grow. -/
theorem processMoviesLoop_exists_mono :
    ∀ (rs : List MovieRecord) (cnt : Nat) (mp : List (PyStr × Nat)) (db : DB) (i : Nat),
      movie_exists i db = true → movie_exists i (processMoviesLoop rs cnt mp db).2 = true := by
  intro rs
  induction rs with
  | nil => intro cnt mp db i h; exact h
  | cons r rs ih =>
    intro cnt mp db i h
    rw [processMoviesLoop]
    rcases hins : insert_movie r db with ⟨res, da⟩
    have hda : movie_exists i da = true := by
      have hm := insert_movie_exists_mono r db i h
      rw [hins] at hm
      exact hm
    dsimp only
    by_cases h1 : optTruthy res
    · rw [if_pos h1]
      dsimp only
      rcases ht : r.title with _ | t
      · exact hda
      · refine ih _ _ _ i ?_
        rw [movie_exists_eq_of i _ da ((insertReleasesLoop_eqnd _ r.releases da).1)]
        exact hda
    · rw [if_neg h1]
      dsimp only
      rcases ht : r.title with _ | t
      · exact hda
      · refine ih _ _ _ i ?_
        rw [movie_exists_eq_of i _ da ((insertReleasesLoop_eqnd _ r.releases da).1)]
        exact hda

/-- Whether the movie loop aborts (KeyError) is determined by the records
alone: it succeeds iff every record has a title key. -/
theorem processMoviesLoop_shape :
    ∀ (rs : List MovieRecord) (cnt : Nat) (mp : List (PyStr × Nat)) (db : DB),
      (processMoviesLoop rs cnt mp db).1.isSome = rs.all fun r => r.title.isSome := by
  intro rs
  induction rs with
  | nil => intro cnt mp db; rfl
  | cons r rs ih =>
    intro cnt mp db
    rw [processMoviesLoop]
    rcases hins : insert_movie r db with ⟨res, da⟩
    dsimp only
    by_cases h1 : optTruthy res
    · rw [if_pos h1]
      dsimp only
      rcases ht : r.title with _ | t
      · simp [ht]
      · simp [ht, ih]
    · rw [if_neg h1]
      dsimp only
      rcases ht : r.title with _ | t
      · simp [ht]
      · simp [ht, ih]

/-- The mapping produced by the movie loop is determined by the records
alone (and in particular is the same on a first and on a second run). -/
theorem processMoviesLoop_mapping :
    ∀ (rs : List MovieRecord) (cnt : Nat) (mp : List (PyStr × Nat)) (db : DB),
      (processMoviesLoop rs cnt mp db).1.map Prod.snd = mappingOfRecords rs mp := by
  intro rs
  induction rs with
  | nil => intro cnt mp db; rfl
  | cons r rs ih =>
    intro cnt mp db
    rw [processMoviesLoop, mappingOfRecords]
    rcases hins : insert_movie r db with ⟨res, da⟩
    dsimp only
    by_cases h1 : optTruthy res
    · have hfb : res.getD 0 = fallbackId r := by
        rcases res with _ | j
        · exact absurd h1 (by simp [optTruthy])
        · have hfst : (insert_movie r db).1 = some j := by rw [hins]
          simpa using insert_movie_fst r db j hfst
      rw [if_pos h1]
      dsimp only
      rcases ht : r.title with _ | t
      · rfl
      · rw [hfb]
        exact ih _ _ _
    · rw [if_neg h1]
      dsimp only
      rcases ht : r.title with _ | t
      · rfl
      · exact ih _ _ _

/-- On a sink whose movies table already contains everything the first run of
the movie loop left there, a second run of the movie loop changes nothing
outside `releases`. -/
theorem processMoviesLoop_second_run :
    ∀ (rs : List MovieRecord) (cnt : Nat) (mp : List (PyStr × Nat))
      (cnt2 : Nat) (mp2 : List (PyStr × Nat)) (db dbE : DB),
      (∀ i, movie_exists i (processMoviesLoop rs cnt mp db).2 = true →
        movie_exists i dbE = true) →
      EqND (processMoviesLoop rs cnt2 mp2 dbE).2 dbE := by
  intro rs
  induction rs with
  | nil => intro _ _ _ _ db dbE _; exact eqnd_refl dbE
  | cons r rs ih =>
    intro cnt mp cnt2 mp2 db dbE hsup
    rcases hins1 : insert_movie r db with ⟨res1, da⟩
    rcases ht : r.title with _ | t
    · -- no title key: both runs abort right after a no-op `insert_movie`
      have hvnone : validateMovieData r = none := by
        unfold validateMovieData
        rw [ht]
      have hskip : insert_movie r dbE = (none, dbE) :=
        insert_movie_skip r dbE (fun m hv => absurd (hvnone ▸ hv) (by simp))
      rw [processMoviesLoop, hskip]
      dsimp only
      rw [ht]
      exact eqnd_refl dbE
    · -- run 1, one step unfolded
      have heq : (processMoviesLoop (r :: rs) cnt mp db).2 =
          (processMoviesLoop rs (if optTruthy res1 then cnt + 1 else cnt)
            (dictUpd t (if optTruthy res1 then res1.getD 0 else fallbackId r) mp)
            (insertReleasesLoop (if optTruthy res1 then res1.getD 0 else fallbackId r)
              r.releases da)).2 := by
        rw [processMoviesLoop, hins1]
        dsimp only
        by_cases h1 : optTruthy res1
        · rw [if_pos h1]
          dsimp only
          rw [ht]
          rw [if_pos h1, if_pos h1]
        · rw [if_neg h1]
          dsimp only
          rw [ht]
          rw [if_neg h1, if_neg h1]
      -- the id this record resolves to is present in dbE (when it validates)
      have hpresent : ∀ m, validateMovieData r = some m →
          movie_exists (fallbackId r) dbE = true := by
        intro m hv
        apply hsup
        rw [heq]
        apply processMoviesLoop_exists_mono
        rw [movie_exists_eq_of _ _ da ((insertReleasesLoop_eqnd _ r.releases da).1)]
        have hp := insert_movie_post r db m hv
        rw [hins1] at hp
        exact hp
      have hskip : insert_movie r dbE = (none, dbE) :=
        insert_movie_skip r dbE hpresent
      rw [processMoviesLoop, hskip]
      dsimp only
      rw [ht]
      show EqND (processMoviesLoop rs cnt2 (dictUpd t (fallbackId r) mp2)
        (insertReleasesLoop (fallbackId r) r.releases dbE)).2 dbE
      have hErel : EqND (insertReleasesLoop (fallbackId r) r.releases dbE) dbE :=
        insertReleasesLoop_eqnd _ r.releases dbE
      refine eqnd_trans
        (ih (if optTruthy res1 then cnt + 1 else cnt)
          (dictUpd t (if optTruthy res1 then res1.getD 0 else fallbackId r) mp)
          cnt2 (dictUpd t (fallbackId r) mp2)
          (insertReleasesLoop (if optTruthy res1 then res1.getD 0 else fallbackId r)
            r.releases da)
          _ ?_) hErel
      intro i hi
      have h2 := hsup i (by rw [heq]; exact hi)
      rw [movie_exists_eq_of i _ dbE hErel.1]
      exact h2

/-! Showtime phase. -/

/-- `insert_screening` touches no table but screenings. -/
theorem insert_screening_frame (sd : ScreeningData) (mid : Nat) (cid : PyStr) (db : DB) :
    (insert_screening sd mid cid db).2.movies = db.movies ∧
    (insert_screening sd mid cid db).2.directors = db.directors ∧
    (insert_screening sd mid cid db).2.languages = db.languages ∧
    (insert_screening sd mid cid db).2.movie_directors = db.movie_directors ∧
    (insert_screening sd mid cid db).2.movie_languages = db.movie_languages ∧
    (insert_screening sd mid cid db).2.releases = db.releases := by
  unfold insert_screening
  rcases hd : sd.date with _ | d
  · exact ⟨rfl, rfl, rfl, rfl, rfl, rfl⟩
  · dsimp only
    by_cases hne : d.isEmpty
    · rw [if_pos hne]
      exact ⟨rfl, rfl, rfl, rfl, rfl, rfl⟩
    · rw [if_neg hne]
      by_cases hex : db.screenings.any
          (screeningMatches mid (cinema_id_to_int cid) d (screeningTime sd)) = true
      · rw [if_pos hex]
        exact ⟨rfl, rfl, rfl, rfl, rfl, rfl⟩
      · rw [if_neg hex]
        exact ⟨rfl, rfl, rfl, rfl, rfl, rfl⟩

/-- `insert_screening` only appends to screenings: any row filter satisfied
before stays satisfied. -/
theorem insert_screening_scr_mono (sd : ScreeningData) (mid : Nat) (cid : PyStr) (db : DB)
    (p : ScreeningRow → Bool) (h : db.screenings.any p = true) :
    (insert_screening sd mid cid db).2.screenings.any p = true := by
  unfold insert_screening
  rcases hd : sd.date with _ | d
  · exact h
  · dsimp only
    by_cases hne : d.isEmpty
    · rw [if_pos hne]
      exact h
    · rw [if_neg hne]
      by_cases hex : db.screenings.any
          (screeningMatches mid (cinema_id_to_int cid) d (screeningTime sd)) = true
      · rw [if_pos hex]
        exact h
      · rw [if_neg hex]
        dsimp only
        simp only [List.any_append, Bool.or_eq_true]
        exact Or.inl h

/-- After `insert_screening`, a row with the requested composite key is
present. -/
theorem insert_screening_post (sd : ScreeningData) (mid : Nat) (cid : PyStr) (db : DB)
    (d : PyStr) (hd : sd.date = some d) (hne : d.isEmpty = false) :
    (insert_screening sd mid cid db).2.screenings.any
      (screeningMatches mid (cinema_id_to_int cid) d (screeningTime sd)) = true := by
  unfold insert_screening
  rw [hd]
  dsimp only
  rw [hne, if_neg Bool.false_ne_true]
  by_cases hex : db.screenings.any
      (screeningMatches mid (cinema_id_to_int cid) d (screeningTime sd)) = true
  · rw [if_pos hex]
    exact hex
  · rw [if_neg hex]
    dsimp only
    simp only [List.any_append, List.any_cons, List.any_nil, Bool.or_eq_true]
    right
    left
    simp [screeningMatches]

/-- `insert_screening` is a pure no-op when the date is falsy or the row is
already present. -/
theorem insert_screening_noop (sd : ScreeningData) (mid : Nat) (cid : PyStr) (db : DB)
    (d : PyStr) (hd : sd.date = some d)
    (h : d.isEmpty = true ∨ db.screenings.any
      (screeningMatches mid (cinema_id_to_int cid) d (screeningTime sd)) = true) :
    (insert_screening sd mid cid db).2 = db := by
  unfold insert_screening
  rw [hd]
  dsimp only
  rcases h with h | h
  · rw [if_pos h]
  · by_cases hne : d.isEmpty
    · rw [if_pos hne]
    · rw [if_neg hne]
      rw [if_pos h]

theorem processShowtimeList_movies (mid : Nat) (d cid : PyStr) :
    ∀ (sts : List ShowtimeRec) (cnt : Nat) (db : DB),
      (processShowtimeList mid d cid sts cnt db).2.movies = db.movies := by
  intro sts
  induction sts with
  | nil => intro cnt db; rfl
  | cons st sts ih =>
    intro cnt db
    rw [processShowtimeList]
    rcases hins : insert_screening (sdOf d st) mid cid db with ⟨ok, db'⟩
    dsimp only
    rw [ih]
    have := (insert_screening_frame (sdOf d st) mid cid db).1
    rw [hins] at this
    exact this

theorem processShowtimeList_scr_mono (mid : Nat) (d cid : PyStr) (p : ScreeningRow → Bool) :
    ∀ (sts : List ShowtimeRec) (cnt : Nat) (db : DB),
      db.screenings.any p = true →
      (processShowtimeList mid d cid sts cnt db).2.screenings.any p = true := by
  intro sts
  induction sts with
  | nil => intro cnt db h; exact h
  | cons st sts ih =>
    intro cnt db h
    rw [processShowtimeList]
    rcases hins : insert_screening (sdOf d st) mid cid db with ⟨ok, db'⟩
    dsimp only
    refine ih _ _ ?_
    have := insert_screening_scr_mono (sdOf d st) mid cid db p h
    rw [hins] at this
    exact this

theorem processShowtimeList_post (mid : Nat) (d cid : PyStr) (hne : d.isEmpty = false) :
    ∀ (sts : List ShowtimeRec) (cnt : Nat) (db : DB) (st : ShowtimeRec), st ∈ sts →
      (processShowtimeList mid d cid sts cnt db).2.screenings.any
        (screeningMatches mid (cinema_id_to_int cid) d (screeningTime (sdOf d st))) = true := by
  intro sts
  induction sts with
  | nil => intro cnt db st h; exact absurd h (List.not_mem_nil st)
  | cons st' sts ih =>
    intro cnt db st hmem
    rw [processShowtimeList]
    rcases hins : insert_screening (sdOf d st') mid cid db with ⟨ok, db'⟩
    dsimp only
    rcases List.mem_cons.mp hmem with rfl | hmem'
    · refine processShowtimeList_scr_mono mid d cid _ sts _ db' ?_
      have := insert_screening_post (sdOf d st) mid cid db d rfl hne
      rw [hins] at this
      exact this
    · exact ih _ _ st hmem'

theorem processShowtimeList_unchanged (mid : Nat) (d cid : PyStr) :
    ∀ (sts : List ShowtimeRec) (cnt : Nat) (db : DB),
      (∀ st ∈ sts, d.isEmpty = true ∨ db.screenings.any
        (screeningMatches mid (cinema_id_to_int cid) d (screeningTime (sdOf d st))) = true) →
      (processShowtimeList mid d cid sts cnt db).2 = db := by
  intro sts
  induction sts with
  | nil => intro cnt db _; rfl
  | cons st sts ih =>
    intro cnt db h
    rw [processShowtimeList]
    have hno : (insert_screening (sdOf d st) mid cid db).2 = db :=
      insert_screening_noop (sdOf d st) mid cid db d rfl (h st (List.mem_cons_self st sts))
    rcases hins : insert_screening (sdOf d st) mid cid db with ⟨ok, db'⟩
    rw [hins] at hno
    dsimp only at hno ⊢
    rw [hno]
    exact ih _ db fun st' hst' => h st' (List.mem_cons_of_mem st hst')

theorem processShowtimesLoop_movies (mp : List (PyStr × Nat)) (d cid : PyStr) :
    ∀ (sts : List ShowtimeEntry) (cnt : Nat) (db : DB),
      (processShowtimesLoop mp d cid sts cnt db).2.movies = db.movies := by
  intro sts
  induction sts with
  | nil => intro cnt db; rfl
  | cons e es ih =>
    intro cnt db
    rw [processShowtimesLoop]
    by_cases hm : optTruthy (dictGet e.title mp)
    · rw [if_pos hm]
      rcases hrun : processShowtimeList ((dictGet e.title mp).getD 0) d cid e.showtimes cnt db
        with ⟨c', db'⟩
      dsimp only
      rw [ih]
      have := processShowtimeList_movies ((dictGet e.title mp).getD 0) d cid e.showtimes cnt db
      rw [hrun] at this
      exact this
    · rw [if_neg hm]
      exact ih _ _

theorem processShowtimesLoop_scr_mono (mp : List (PyStr × Nat)) (d cid : PyStr)
    (p : ScreeningRow → Bool) :
    ∀ (sts : List ShowtimeEntry) (cnt : Nat) (db : DB),
      db.screenings.any p = true →
      (processShowtimesLoop mp d cid sts cnt db).2.screenings.any p = true := by
  intro sts
  induction sts with
  | nil => intro cnt db h; exact h
  | cons e es ih =>
    intro cnt db h
    rw [processShowtimesLoop]
    by_cases hm : optTruthy (dictGet e.title mp)
    · rw [if_pos hm]
      rcases hrun : processShowtimeList ((dictGet e.title mp).getD 0) d cid e.showtimes cnt db
        with ⟨c', db'⟩
      dsimp only
      refine ih _ _ ?_
      have := processShowtimeList_scr_mono ((dictGet e.title mp).getD 0) d cid p
        e.showtimes cnt db h
      rw [hrun] at this
      exact this
    · rw [if_neg hm]
      exact ih _ _ h

/-- A second pass of the showtime loop over a sink that already holds every
screening the first pass left there changes nothing at all. -/
theorem processShowtimesLoop_second_run (mp : List (PyStr × Nat)) (d cid : PyStr) :
    ∀ (sts : List ShowtimeEntry) (c1 c2 : Nat) (db dbE : DB),
      dbE.screenings = (processShowtimesLoop mp d cid sts c1 db).2.screenings →
      (processShowtimesLoop mp d cid sts c2 dbE).2 = dbE := by
  intro sts
  induction sts with
  | nil => intro c1 c2 db dbE h; rfl
  | cons e es ih =>
    intro c1 c2 db dbE h
    rw [processShowtimesLoop]
    by_cases hm : optTruthy (dictGet e.title mp)
    · rw [if_pos hm]
      rw [processShowtimesLoop, if_pos hm] at h
      rcases hrun1 : processShowtimeList ((dictGet e.title mp).getD 0) d cid e.showtimes c1 db
        with ⟨c1', db'⟩
      rw [hrun1] at h
      dsimp only at h
      have hunc : (processShowtimeList ((dictGet e.title mp).getD 0) d cid e.showtimes c2 dbE).2
          = dbE := by
        apply processShowtimeList_unchanged
        intro st hst
        by_cases hdni : d.isEmpty
        · exact Or.inl hdni
        · right
          rw [h]
          apply processShowtimesLoop_scr_mono
          have hpost := processShowtimeList_post ((dictGet e.title mp).getD 0) d cid
            (Bool.eq_false_iff.mpr hdni) e.showtimes c1 db st hst
          rw [hrun1] at hpost
          exact hpost
      rcases hrun2 : processShowtimeList ((dictGet e.title mp).getD 0) d cid e.showtimes c2 dbE
        with ⟨c2', dbE2⟩
      rw [hrun2] at hunc
      dsimp only at hunc
      dsimp only
      rw [hunc]
      exact ih c1' c2' db' dbE h
    · rw [if_neg hm]
      rw [processShowtimesLoop, if_neg hm] at h
      exact ih _ _ _ _ h

/-- C2: running the full reconciliation `process_cinema_screenings` twice for
the same `(cinema, date)` unit against the same sink leaves the movies,
directors, languages, movie_directors, movie_languages and screenings tables
exactly as the first run left them — the second run issues no effective write
to any of them (existence-check-then-skip for movies and screenings), so no
duplicate rows appear in the Movie, Screening or link tables, and it completes
without error for every feed. -/
theorem process_cinema_screenings_idempotent
    (fM : Except PyStr (List MovieRecord)) (fS : Except PyStr (List ShowtimeEntry))
    (cid d : PyStr) (db : DB) :
    (process_cinema_screenings fM fS cid d
        (process_cinema_screenings fM fS cid d db).2).2.movies
      = (process_cinema_screenings fM fS cid d db).2.movies ∧
    (process_cinema_screenings fM fS cid d
        (process_cinema_screenings fM fS cid d db).2).2.directors
      = (process_cinema_screenings fM fS cid d db).2.directors ∧
    (process_cinema_screenings fM fS cid d
        (process_cinema_screenings fM fS cid d db).2).2.languages
      = (process_cinema_screenings fM fS cid d db).2.languages ∧
    (process_cinema_screenings fM fS cid d
        (process_cinema_screenings fM fS cid d db).2).2.movie_directors
      = (process_cinema_screenings fM fS cid d db).2.movie_directors ∧
    (process_cinema_screenings fM fS cid d
        (process_cinema_screenings fM fS cid d db).2).2.movie_languages
      = (process_cinema_screenings fM fS cid d db).2.movie_languages ∧
    (process_cinema_screenings fM fS cid d
        (process_cinema_screenings fM fS cid d db).2).2.screenings
      = (process_cinema_screenings fM fS cid d db).2.screenings := by
  unfold process_cinema_screenings
  rcases fM with e | ms
  · exact ⟨rfl, rfl, rfl, rfl, rfl, rfl⟩
  · dsimp only
    rcases h1 : processMoviesLoop ms 0 [] db with ⟨o1, db1m⟩
    rcases o1 with _ | p1
    · dsimp only
      rcases h2 : processMoviesLoop ms 0 [] db1m with ⟨o2, db2m⟩
      have hsh1 := processMoviesLoop_shape ms 0 [] db
      have hsh2 := processMoviesLoop_shape ms 0 [] db1m
      rw [h1] at hsh1
      rw [h2] at hsh2
      rcases o2 with _ | p2
      · dsimp only
        have heq := processMoviesLoop_second_run ms 0 [] 0 [] db db1m
          (by intro i hi; rw [h1] at hi; exact hi)
        rw [h2] at heq
        exact heq
      · have hcontra : true = false := hsh2.trans hsh1.symm
        exact absurd hcontra (by decide)
    · rcases p1 with ⟨cnt1, mp1⟩
      dsimp only
      rcases fS with es | sts
      · dsimp only
        rcases h2 : processMoviesLoop ms 0 [] db1m with ⟨o2, db2m⟩
        have hsh1 := processMoviesLoop_shape ms 0 [] db
        have hsh2 := processMoviesLoop_shape ms 0 [] db1m
        rw [h1] at hsh1
        rw [h2] at hsh2
        rcases o2 with _ | p2
        · have hcontra : true = false := hsh1.trans hsh2.symm
          exact absurd hcontra (by decide)
        · rcases p2 with ⟨cnt2, mp2⟩
          dsimp only
          have heq := processMoviesLoop_second_run ms 0 [] 0 [] db db1m
            (by intro i hi; rw [h1] at hi; exact hi)
          rw [h2] at heq
          exact heq
      · dsimp only
        rcases hS1 : processShowtimesLoop mp1 d cid sts 0 db1m with ⟨s1, db1s⟩
        dsimp only
        rcases h2 : processMoviesLoop ms 0 [] db1s with ⟨o2, db2m⟩
        have hsh1 := processMoviesLoop_shape ms 0 [] db
        have hsh2 := processMoviesLoop_shape ms 0 [] db1s
        rw [h1] at hsh1
        rw [h2] at hsh2
        rcases o2 with _ | p2
        · have hcontra : true = false := hsh1.trans hsh2.symm
          exact absurd hcontra (by decide)
        rcases p2 with ⟨cnt2, mp2⟩
        dsimp only
        have hmov : db1s.movies = db1m.movies := by
          have h := processShowtimesLoop_movies mp1 d cid sts 0 db1m
          rw [hS1] at h
          exact h
        have heq : EqND db2m db1s := by
          have h := processMoviesLoop_second_run ms 0 [] 0 [] db db1s (by
            intro i hi
            rw [h1] at hi
            rw [movie_exists_eq_of i db1s db1m hmov]
            exact hi)
          rw [h2] at h
          exact h
        have hmap1 := processMoviesLoop_mapping ms 0 [] db
        have hmap2 := processMoviesLoop_mapping ms 0 [] db1s
        rw [h1] at hmap1
        rw [h2] at hmap2
        have hmp : mp2 = mp1 := by
          have hsome : (some mp2 : Option (List (PyStr × Nat))) = some mp1 :=
            hmap2.trans hmap1.symm
          exact Option.some.inj hsome
        subst hmp
        rcases hS2 : processShowtimesLoop mp2 d cid sts 0 db2m with ⟨s2, db2s⟩
        dsimp only
        have hnoop := processShowtimesLoop_second_run mp2 d cid sts 0 0 db1m db2m (by
          rw [hS1]
          exact heq.2.2.2.2.2)
        rw [hS2] at hnoop
        dsimp only at hnoop
        rw [hnoop]
        exact heq

end MM
